import Mathlib

/-!
Shallow embedding of the toy compiler's semantic analyzer / code generator
(src/compiler.py) and proofs about it.

The surface lexer/parser is out of scope per the specification, so expressions
are modelled post-parse: an atom token, a compound keyword application, a raw
brace-block argument (kept by the parser as raw text and re-parsed on demand;
here represented by its parsed expression list), and a bracketed parameter
list (parse_param_str output, names paired with raw type names).

The assembly template bank (module assembly, not part of src/) is treated as
the spec treats it: a pure map from operation and parameters to text, here an
inductive of instruction tokens.  Python lists indexed from the end are
modelled as Lean lists whose last element is the top; sys.exit errors are
CErr.typed, uncaught Python IndexError is CErr.indexError, and recursion is
fuel-indexed (CErr.fuelOut), which does not occur for adequate fuel.
-/

namespace ToyCompiler

/-- The compiler's value type tags (TYPES) plus the BLOCK marker returned by
control-flow constructs. -/
inductive Ty where
  | UNDEF
  | INT
  | STRING_LIT
  | STRING
  | BLOCK
deriving DecidableEq, Repr

/-- Surface names of the members of TYPES, for declarations. -/
def tyOfString (s : String) : Option Ty :=
  if s = "UNDEF" then some Ty.UNDEF
  else if s = "INT" then some Ty.INT
  else if s = "STRING_LIT" then some Ty.STRING_LIT
  else if s = "STRING" then some Ty.STRING
  else none

def tyName : Ty → String
  | Ty.UNDEF => "UNDEF"
  | Ty.INT => "INT"
  | Ty.STRING_LIT => "STRING_LIT"
  | Ty.STRING => "STRING"
  | Ty.BLOCK => "BLOCK"

/-- One emitted assembly fragment: a template of the bank together with its
parameters (spec section 2 item 1 treats the bank as a pure map). -/
inductive Instr where
  | getLocal (off : Nat)
  | getParam (off : Nat)
  | literal (text : String)
  | pushResult
  | popLocal
  | storeLocal (off : Nat)
  | primaryReturn
  | primaryExit
  | primaryInc (off : Nat)
  | primaryDec (off : Nat)
  | callExt (name : String)
  | clearStack (bytes : Nat)
  | ifStart (id : Nat)
  | elseStart (id : Nat)
  | ifEnd (id : Nat)
  | whileStart (id : Nat)
  | whileCondEval (id : Nat)
  | whileEnd (id : Nat)
  | whileBreak (id : Nat)
  | whileContinue (id : Nat)
  | functionStart (name : String)
  | functionEnd (name : String)
  | functionCall (name : String) (argBytes : Nat)
  | unaryOp (name : String)
  | binaryOp (name : String)
  | comparisonOp (name : String) (id : Nat)
  | logicalOp (name : String) (id : Nat)
  | checkOverflowOp (id : Nat)
deriving DecidableEq, Repr

/-- A parsed expression node.  parse produces a bare token string (atom), or a
pair of keyword and argument list (call); an argument that starts with a curly
brace is kept raw and re-parsed by the block evaluator (blockArg holds that
parse), and a bracketed parameter list is held as parse_param_str yields it:
names paired with raw type-name strings (paramsArg). -/
inductive Expr where
  | atom (s : String)
  | blockArg (es : List Expr)
  | paramsArg (ps : List (String × String))
  | call (kw : String) (args : List Expr)

/-- Errors: sys.exit messages (typed) versus uncaught Python IndexError on
indexing an empty list (indexError); fuelOut is the artifact of fuel-indexed
recursion and never occurs for adequate fuel. -/
inductive CErr where
  | typed (msg : String)
  | indexError
  | fuelOut
deriving DecidableEq, Repr

/-- A variable binding: (name, type), as stored in a block. -/
abbrev Binding := String × Ty

/-- One stack frame of STACK_FRAMES: name, params, stack of variable blocks
(last = innermost), declared return type. -/
structure Frame where
  name : String
  params : List Binding
  vars : List (List Binding)
  return_type : Ty
deriving DecidableEq, Repr

/-- One FUNCTIONS table entry: parameter types, return type, compiled body. -/
structure FuncDesc where
  param_types : List Ty
  return_type : Ty
  fasm : List Instr
deriving DecidableEq, Repr

/-- The compiler's process-wide mutable state.  Only the top stack frame is
ever read or written, so it is held directly (frame) with the remaining frames
below it (outerFrames, nearest first).  loopIds has its last element as the
innermost loop, like the Python list. -/
structure CState where
  frame : Frame
  outerFrames : List Frame
  uniqueCounter : Nat
  loopIds : List (Nat × Nat)
  functions : List (String × FuncDesc)
  literals : List (String × String)
deriving DecidableEq, Repr

/-- The initial STACK_FRAMES entry: top-level program, frame main, no
parameters, one empty block, return type UNDEF; all other state empty. -/
def initState : CState :=
  { frame := { name := "main", params := [], vars := [[]], return_type := Ty.UNDEF }
    outerFrames := []
    uniqueCounter := 0
    loopIds := []
    functions := []
    literals := [] }

/-- get_unique_count: increment the counter and return the new value. -/
def getUniqueCount (st : CState) : Nat × CState :=
  (st.uniqueCounter + 1, { st with uniqueCounter := st.uniqueCounter + 1 })

def CState.pushBlock (st : CState) : CState :=
  { st with frame := { st.frame with vars := st.frame.vars ++ [[]] } }

def CState.popBlock (st : CState) : CState :=
  { st with frame := { st.frame with vars := st.frame.vars.dropLast } }

/-- STACK_FRAMES[-1]['vars'][-1], the innermost block. -/
def CState.innerBlock (st : CState) : List Binding :=
  st.frame.vars.getLastD []

/-- Replace the innermost block (mutation of vars[-1]). -/
def CState.setInnerBlock (st : CState) (b : List Binding) : CState :=
  { st with frame := { st.frame with vars := st.frame.vars.dropLast ++ [b] } }

/-- find_variable: scan the flattened blocks keeping the last (innermost)
occurrence, returning its flattened index and type. -/
def findVarAux (name : String) : List Binding → Nat → Option (Nat × Ty) → Option (Nat × Ty)
  | [], _, acc => acc
  | (n, t) :: rest, i, acc =>
      findVarAux name rest (i + 1) (if n = name then some (i, t) else acc)

def find_variable (name : String) (vars : List (List Binding)) : Option (Nat × Ty) :=
  findVarAux name vars.flatten 0 none

/-- find_parameter: first occurrence in the parameter list. -/
def findParamAux (name : String) : List Binding → Nat → Option (Nat × Ty)
  | [], _ => none
  | (n, t) :: rest, i => if n = name then some (i, t) else findParamAux name rest (i + 1)

def find_parameter (name : String) (params : List Binding) : Option (Nat × Ty) :=
  findParamAux name params 0

/-- check_arguments: argument-count check for var / set / function. -/
def check_arguments (args : List Expr) (num : Nat) (fn : String) : Except CErr Unit :=
  if args.length ≠ num then
    Except.error (CErr.typed ("Error: expected " ++ toString num ++ " arguments for "
      ++ fn ++ ", got " ++ toString args.length))
  else Except.ok ()

/-- An expected-signature entry: a single type tag or a list of acceptable
tags, as check_arg_types distinguishes them. -/
inductive ExpTy where
  | one (t : Ty)
  | anyOf (ts : List Ty)
deriving DecidableEq, Repr

def expMatches : ExpTy → Ty → Bool
  | ExpTy.one t, u => t == u
  | ExpTy.anyOf ts, u => ts.contains u

/-- Body of check_arg_types: compare reversed observed types against the
expected signature positionally. -/
def checkAux (kw : String) : List Ty → List ExpTy → Nat → Except CErr Unit
  | [], [], _ => Except.ok ()
  | t :: ts, e :: es, i =>
      if expMatches e t then checkAux kw ts es (i + 1)
      else Except.error (CErr.typed ("Error: expected type for argument "
        ++ toString (i + 1) ++ " of " ++ kw ++ ", got " ++ tyName t))
  | _, _, _ => Except.error CErr.indexError

/-- check_arg_types: arity check, then the reversed observed-type list is
compared entry by entry with the expected signature. -/
def check_arg_types (kw : String) (arg_types : List Ty) (expected : List ExpTy) : Except CErr Unit :=
  if arg_types.length ≠ expected.length then
    Except.error (CErr.typed ("Error: expected " ++ toString expected.length
      ++ " arguments for " ++ kw ++ ", got " ++ toString arg_types.length))
  else checkAux kw arg_types.reverse expected 0

/-- Python equality between a binding name (a string) and a parsed argument:
equal only when the argument is that bare token. -/
def exprIsName : Expr → String → Bool
  | Expr.atom s, n => s == n
  | _, _ => false

/-- type(arg) == list: true exactly for compound keyword applications. -/
def isCompound : Expr → Bool
  | Expr.call _ _ => true
  | _ => false

/-- A printable tag of an argument for error messages. -/
def exprText : Expr → String
  | Expr.atom s => s
  | Expr.call kw _ => kw
  | Expr.blockArg _ => "block"
  | Expr.paramsArg _ => "params"

/-- The emitted free sequence for flattened slot i: get-local, push,
call-extension free_str. -/
def slotFree (i : Nat) : List Instr :=
  [Instr.getLocal (4 + i * 4), Instr.pushResult, Instr.callExt "free_str"]

/-- The block-exit free pass: walk a flattened binding list and free every
binding whose type is still STRING. -/
def blockFrees : List Binding → Nat → List Instr
  | [], _ => []
  | (_, t) :: rest, i =>
      (if t = Ty.STRING then slotFree i else []) ++ blockFrees rest (i + 1)

/-- The return free pass: walk the flattened bindings; for a STRING binding
the code compares its name against args[0], which raises IndexError when the
argument list is empty. -/
def returnFrees (args : List Expr) : List Binding → Nat → Except CErr (List Instr)
  | [], _ => Except.ok []
  | (n, t) :: rest, i =>
      if t = Ty.STRING then
        match args.head? with
        | none => Except.error CErr.indexError
        | some a0 =>
            if exprIsName a0 n then returnFrees args rest (i + 1)
            else do
              let tail ← returnFrees args rest (i + 1)
              Except.ok (slotFree i ++ tail)
      else returnFrees args rest (i + 1)

/-- The emission of free_at_loop_break once the innermost loop is known:
free every STRING binding in the slots declared since the loop opened
(depth blocks were live at loop entry), then pop those slots. -/
def loopBreakFrees (st : CState) (depth : Nat) : List Instr :=
  let flat := st.frame.vars.flatten
  let startPos := ((st.frame.vars.take depth).flatten).length
  (((List.range' startPos (flat.length - startPos)).map (fun i =>
    match flat.get? i with
    | some (_, Ty.STRING) => slotFree i
    | _ => [])).flatten) ++ List.replicate (flat.length - startPos) Instr.popLocal

/-- free_at_loop_break: free every STRING binding in the slots declared since
the innermost loop opened, then pop those slots; peeking the empty loop stack
raises IndexError. -/
def free_at_loop_break (st : CState) : Except CErr (List Instr) :=
  match st.loopIds.getLast? with
  | none => Except.error CErr.indexError
  | some (_, depth) => Except.ok (loopBreakFrees st depth)

/-- free_arguments: walk args (source order) paired positionally with
arg_types (which the caller collected in evaluation order); a STRING-typed
entry whose arg is a compound call is freed, everything else is dropped with
clear-stack(4). -/
def free_arguments : List Expr → List Ty → List Instr
  | a :: args, t :: ts =>
      (if t = Ty.STRING ∧ isCompound a = true then [Instr.callExt "free_str"]
       else [Instr.clearStack 4]) ++ free_arguments args ts
  | _, _ => []

/-- Name check: Python name[0].isalpha(), IndexError on the empty string. -/
def nameStartsAlpha (n : String) (msg : String) : Except CErr Unit :=
  match n.data with
  | [] => Except.error CErr.indexError
  | c :: _ => if c.isAlpha then Except.ok () else Except.error (CErr.typed msg)

/-- Parameter-list pass 1: every declared type must be in TYPES. -/
def checkParamTypes : List (String × String) → Except CErr (List Binding)
  | [] => Except.ok []
  | (n, ts) :: rest =>
      match tyOfString ts with
      | none => Except.error (CErr.typed ("Error: unknown type: " ++ ts
          ++ " for parameter: " ++ n))
      | some t => do
          let r ← checkParamTypes rest
          Except.ok ((n, t) :: r)

/-- Parameter-list pass 2: every parameter name must start with a letter. -/
def checkParamNames : List Binding → Except CErr Unit
  | [] => Except.ok ()
  | (n, _) :: rest =>
      match n.data with
      | [] => Except.error CErr.indexError
      | c :: _ =>
          if c.isAlpha then checkParamNames rest
          else Except.error (CErr.typed "Error: parameter name must start with a letter")

/-- Python dict insert: overwrite in place if present, else append. -/
def fnInsert (fns : List (String × FuncDesc)) (name : String) (d : FuncDesc) :
    List (String × FuncDesc) :=
  if fns.any (fun p => p.1 == name) then
    fns.map (fun p => if p.1 == name then (name, d) else p)
  else fns ++ [(name, d)]

/-- FUNCTIONS[name]['asm'] = a. -/
def fnSetAsm (fns : List (String × FuncDesc)) (name : String) (a : List Instr) :
    List (String × FuncDesc) :=
  fns.map (fun p => if p.1 == name then (p.1, { p.2 with fasm := a }) else p)

/-- The retype loop of var and set: every binding of the innermost block whose
name equals the right-hand-side expression is set to UNDEF (ownership move). -/
def retypeMoved (b : List Binding) (rhs : Expr) : List Binding :=
  b.map (fun v => if exprIsName rhs v.1 then (v.1, Ty.UNDEF) else v)

def quoteChar : Char := Char.ofNat 39

/-- Python str.isdigit on a nonempty token. -/
def isDigits (s : String) : Bool :=
  !s.data.isEmpty && s.data.all Char.isDigit

/-- Modelled from the spec: the names of the built-in extension calls (the
assembly module holding CALL_EXTENSION is not under src/; the spec's built-in
signature table in section 6 lists exactly these names). -/
def CALL_EXTENSION_KEYS : List String :=
  ["print", "println", "print_i", "println_i", "free_str", "Int2Str", "String",
   "Concat", "Substr", "Reverse", "Upper", "Lower", "len"]

/-- Modelled from the spec: the unary INT operator catalog of the template
bank (not under src/); the spec names no unary operator, so the catalog is
kept empty here. -/
def UNARIES_KEYS : List String := []

/-- Modelled from the spec: binary INT operators of the template bank (not
under src/); add and sub are the ones named by the spec scenarios and the
source docstrings. -/
def BINARIES_KEYS : List String := ["add", "sub"]

/-- Modelled from the spec: comparison operators of the template bank (not
under src/); lt appears in the spec scenarios. -/
def COMPARISONS_KEYS : List String := ["lt"]

/-- Modelled from the spec: logical operators and, or, not (spec 4.3). -/
def LOGICALS_KEYS : List String := ["and", "or", "not"]

/-- The general-call tail of eval (everything after the arguments have been
evaluated and pushed): dispatch on the keyword, check the observed types,
emit the call and its cleanup.  args is the source-order argument list, ts
the types collected in evaluation (reverse-source) order. -/
def generalCall (kw : String) (args : List Expr) (ts : List Ty) (asm : List Instr)
    (st : CState) : Except CErr (List Instr × Ty × CState) :=
  if kw = "exit" then
    if args.length = 0 then
      Except.ok (asm ++ [Instr.literal "0", Instr.pushResult, Instr.primaryExit], Ty.UNDEF, st)
    else do
      let _ ← check_arg_types kw ts [ExpTy.one Ty.INT]
      Except.ok (asm ++ [Instr.primaryExit], Ty.UNDEF, st)
  else if CALL_EXTENSION_KEYS.contains kw then
    if kw = "println" then
      if args.length > 0 then do
        let _ ← check_arg_types kw ts [ExpTy.anyOf [Ty.STRING_LIT, Ty.STRING]]
        Except.ok (asm ++ [Instr.callExt "print", Instr.callExt "println"]
          ++ free_arguments args ts, Ty.UNDEF, st)
      else
        Except.ok (asm ++ [Instr.callExt "println"] ++ free_arguments args ts, Ty.UNDEF, st)
    else if kw = "free_str" then do
      let _ ← check_arg_types kw ts [ExpTy.one Ty.STRING]
      Except.ok (asm ++ [Instr.callExt "free_str"], Ty.UNDEF, st)
    else if kw = "print" then do
      let _ ← check_arg_types kw ts [ExpTy.anyOf [Ty.STRING_LIT, Ty.STRING]]
      Except.ok (asm ++ [Instr.callExt "print"] ++ free_arguments args ts, Ty.UNDEF, st)
    else if kw = "print_i" then do
      let _ ← check_arg_types kw ts [ExpTy.one Ty.INT]
      Except.ok (asm ++ [Instr.callExt "print_i"] ++ free_arguments args ts, Ty.UNDEF, st)
    else if kw = "println_i" then do
      let _ ← check_arg_types kw ts [ExpTy.one Ty.INT]
      Except.ok (asm ++ [Instr.callExt "println_i"] ++ free_arguments args ts, Ty.UNDEF, st)
    else if kw = "Int2Str" then do
      let _ ← check_arg_types kw ts [ExpTy.one Ty.INT]
      Except.ok (asm ++ [Instr.callExt "Int2Str"] ++ free_arguments args ts, Ty.STRING, st)
    else if kw = "String" then do
      let _ ← check_arg_types kw ts [ExpTy.anyOf [Ty.STRING_LIT, Ty.STRING]]
      Except.ok (asm ++ [Instr.callExt "String"] ++ free_arguments args ts, Ty.STRING, st)
    else if kw = "Concat" then do
      let _ ← check_arg_types kw ts
        [ExpTy.anyOf [Ty.STRING_LIT, Ty.STRING], ExpTy.anyOf [Ty.STRING_LIT, Ty.STRING]]
      Except.ok (asm ++ [Instr.callExt "Concat"] ++ free_arguments args ts, Ty.STRING, st)
    else if kw = "Substr" then do
      let _ ← check_arg_types kw ts
        [ExpTy.anyOf [Ty.STRING_LIT, Ty.STRING], ExpTy.one Ty.INT, ExpTy.one Ty.INT]
      Except.ok (asm ++ [Instr.callExt "Substr"] ++ free_arguments args ts, Ty.STRING, st)
    else if kw = "Reverse" then do
      let _ ← check_arg_types kw ts [ExpTy.anyOf [Ty.STRING_LIT, Ty.STRING]]
      Except.ok (asm ++ [Instr.callExt "Reverse"] ++ free_arguments args ts, Ty.STRING, st)
    else if kw = "Upper" then do
      let _ ← check_arg_types kw ts
        [ExpTy.anyOf [Ty.STRING_LIT, Ty.STRING], ExpTy.one Ty.INT, ExpTy.one Ty.INT]
      Except.ok (asm ++ [Instr.callExt "Upper"] ++ free_arguments args ts, Ty.STRING, st)
    else if kw = "Lower" then do
      let _ ← check_arg_types kw ts
        [ExpTy.anyOf [Ty.STRING_LIT, Ty.STRING], ExpTy.one Ty.INT, ExpTy.one Ty.INT]
      Except.ok (asm ++ [Instr.callExt "Lower"] ++ free_arguments args ts, Ty.STRING, st)
    else if kw = "len" then do
      let _ ← check_arg_types kw ts [ExpTy.anyOf [Ty.STRING_LIT, Ty.STRING]]
      Except.ok (asm ++ [Instr.callExt "len"] ++ free_arguments args ts, Ty.INT, st)
    else
      Except.ok (asm ++ [Instr.callExt kw] ++ free_arguments args ts, Ty.UNDEF, st)
  else if kw = "inc" ∨ kw = "dec" then do
    let _ ← check_arg_types kw ts [ExpTy.one Ty.INT]
    match args.head? with
    | none => Except.error CErr.indexError
    | some a0 =>
        match (match a0 with
               | Expr.atom s => find_variable s st.frame.vars
               | _ => none) with
        | none => Except.error (CErr.typed ("Error in inc/dec: variable "
            ++ exprText a0 ++ " not found"))
        | some (pos, _) =>
            Except.ok (asm ++ [if kw = "inc" then Instr.primaryInc (4 + pos * 4)
              else Instr.primaryDec (4 + pos * 4)], Ty.UNDEF, st)
  else if UNARIES_KEYS.contains kw then do
    let _ ← check_arg_types kw ts [ExpTy.one Ty.INT]
    Except.ok (asm ++ [Instr.unaryOp kw], Ty.INT, st)
  else if BINARIES_KEYS.contains kw then do
    let _ ← check_arg_types kw ts [ExpTy.one Ty.INT, ExpTy.one Ty.INT]
    Except.ok (asm ++ [Instr.binaryOp kw], Ty.INT, st)
  else if COMPARISONS_KEYS.contains kw then do
    let _ ← check_arg_types kw ts [ExpTy.one Ty.INT, ExpTy.one Ty.INT]
    let (id, st1) := getUniqueCount st
    Except.ok (asm ++ [Instr.comparisonOp kw id], Ty.INT, st1)
  else if LOGICALS_KEYS.contains kw then do
    let _ ← (if kw = "not" then check_arg_types kw ts [ExpTy.one Ty.INT]
             else check_arg_types kw ts [ExpTy.one Ty.INT, ExpTy.one Ty.INT])
    let (id, st1) := getUniqueCount st
    Except.ok (asm ++ [Instr.logicalOp kw id], Ty.INT, st1)
  else if kw = "check_overflow" then do
    let _ ← check_arg_types kw ts []
    let (id, st1) := getUniqueCount st
    Except.ok (asm ++ [Instr.checkOverflowOp id], Ty.INT, st1)
  else if kw = "break" then do
    let _ ← check_arg_types kw ts []
    let fd ← free_at_loop_break st
    match st.loopIds.getLast? with
    | none => Except.error CErr.indexError
    | some (id, _) => Except.ok (asm ++ fd ++ [Instr.whileBreak id], Ty.UNDEF, st)
  else if kw = "continue" then do
    let _ ← check_arg_types kw ts []
    let fd ← free_at_loop_break st
    match st.loopIds.getLast? with
    | none => Except.error CErr.indexError
    | some (id, _) => Except.ok (asm ++ fd ++ [Instr.whileContinue id], Ty.UNDEF, st)
  else
    match st.functions.lookup kw with
    | some fd => do
        let _ ← check_arg_types kw ts (fd.param_types.map ExpTy.one)
        Except.ok (asm ++ [Instr.functionCall kw (args.length * 4)]
          ++ free_arguments args ts, fd.return_type, st)
    | none => Except.error (CErr.typed ("Error: unknown keyword " ++ kw))

mutual

/-- eval(expr, asm) -> (asm2, type): the recursive expression evaluator of
src/compiler.py, fuel-indexed, with the process-wide mutable state passed
explicitly. -/
def eval (fuel : Nat) (e : Expr) (asm : List Instr) (st : CState) :
    Except CErr (List Instr × Ty × CState) :=
  match fuel with
  | 0 => Except.error CErr.fuelOut
  | fu + 1 =>
    match e with
    | Expr.atom s =>
      if s = "" then Except.ok (asm, Ty.UNDEF, st)
      else
        match find_variable s st.frame.vars with
        | some (pos, t) => Except.ok (asm ++ [Instr.getLocal (4 + pos * 4)], t, st)
        | none =>
          match find_parameter s st.frame.params with
          | some (pos, t) => Except.ok (asm ++ [Instr.getParam (8 + pos * 4)], t, st)
          | none =>
            if isDigits s then Except.ok (asm ++ [Instr.literal s], Ty.INT, st)
            else if s.data.head? = some '-' ∧ isDigits (String.mk s.data.tail) then
              Except.ok (asm ++ [Instr.literal s], Ty.INT, st)
            else if s.data.head? = some quoteChar ∧ s.data.getLast? = some quoteChar then
              let (k, st1) := getUniqueCount st
              let label := "string_" ++ toString k
              let st2 := { st1 with literals :=
                st1.literals ++ [(label, String.mk s.data.tail.dropLast)] }
              Except.ok (asm ++ [Instr.literal label], Ty.STRING_LIT, st2)
            else Except.error (CErr.typed ("Error: unknown variable or literal: " ++ s))
    | Expr.blockArg _ => Except.error (CErr.typed "Error: unknown variable or literal: block")
    | Expr.paramsArg _ => Except.error (CErr.typed "Error: unknown variable or literal: params")
    | Expr.call kw args =>
      if kw = "var" then do
        let _ ← check_arguments args 2 "var"
        match args with
        | [a0, a1] =>
          match a0 with
          | Expr.atom name => do
            let _ ← nameStartsAlpha name "Error: variable name must start with a letter"
            if (st.innerBlock.any (fun v => v.1 == name)) then
              Except.error (CErr.typed ("Redeclaration Error: " ++ name))
            else if (st.frame.params.any (fun p => p.1 == name)) then
              Except.error (CErr.typed ("Redeclaration Error(parameter): " ++ name))
            else do
              let (asm1, t, st1) ← eval fu a1 asm st
              let asm2 := asm1 ++ [Instr.pushResult]
              if t = Ty.INT ∨ t = Ty.STRING ∨ t = Ty.STRING_LIT then
                let st2 := if t = Ty.STRING then
                    st1.setInnerBlock (retypeMoved st1.innerBlock a1)
                  else st1
                let st3 := st2.setInnerBlock (st2.innerBlock ++ [(name, t)])
                Except.ok (asm2, Ty.UNDEF, st3)
              else
                Except.error (CErr.typed ("Error: invalid type: " ++ tyName t
                  ++ " for variable: " ++ name))
          | _ => Except.error (CErr.typed "Error: variable name must start with a letter")
        | _ => Except.error CErr.indexError
      else if kw = "set" then do
        let _ ← check_arguments args 2 "set"
        match args with
        | [a0, a1] =>
          match (match a0 with
                 | Expr.atom s => find_variable s st.frame.vars
                 | _ => none) with
          | none => Except.error (CErr.typed ("Error setting undeclared variable: "
              ++ exprText a0))
          | some (pos, vtype) => do
              let (asm1, t, st1) ← eval fu a1 asm st
              let asm2 := asm1 ++ [Instr.pushResult]
              if t ≠ vtype then
                Except.error (CErr.typed ("Error: Type mismatch variable: " ++ exprText a0
                  ++ " expected: " ++ tyName vtype ++ " got: " ++ tyName t))
              else
                let p : CState × List Instr :=
                  if t = Ty.STRING then
                    (st1.setInnerBlock (retypeMoved st1.innerBlock a1),
                     asm2 ++ [Instr.getLocal (4 + pos * 4), Instr.pushResult,
                       Instr.callExt "free_str"])
                  else (st1, asm2)
                Except.ok (p.2 ++ [Instr.storeLocal (4 + pos * 4)], Ty.UNDEF, p.1)
        | _ => Except.error CErr.indexError
      else if kw = "block" then
        match args.head? with
        | none => Except.error CErr.indexError
        | some b => do
            let (asm1, st1) ← evalBlockE fu b asm st
            Except.ok (asm1, Ty.BLOCK, st1)
      else if kw = "if" then
        let (id, st0) := getUniqueCount st
        match args.head? with
        | none => Except.error CErr.indexError
        | some c => do
            let (asm1, t, st1) ← eval fu c asm st0
            let asm2 := asm1 ++ [Instr.pushResult]
            if t ≠ Ty.INT then
              Except.error (CErr.typed "Error: if condition must be of type INT")
            else
              match args.get? 1 with
              | none => Except.error CErr.indexError
              | some thenB => do
                  let (asm3, st2) ← evalBlockE fu thenB (asm2 ++ [Instr.ifStart id]) st1
                  if args.length = 3 then
                    match args.get? 2 with
                    | none => Except.error CErr.indexError
                    | some elseB => do
                        let (asm4, st3) ← evalBlockE fu elseB
                          (asm3 ++ [Instr.elseStart id]) st2
                        Except.ok (asm4 ++ [Instr.ifEnd id], Ty.BLOCK, st3)
                  else
                    Except.ok (asm3 ++ [Instr.elseStart id, Instr.ifEnd id], Ty.BLOCK, st2)
      else if kw = "while" then
        let (id, st0) := getUniqueCount st
        match args.head? with
        | none => Except.error CErr.indexError
        | some c => do
            let (asm1, t, st1) ← eval fu c (asm ++ [Instr.whileStart id]) st0
            let asm2 := asm1 ++ [Instr.pushResult]
            if t ≠ Ty.INT then
              Except.error (CErr.typed "Error: while condition must be of type INT")
            else
              let asm3 := asm2 ++ [Instr.whileCondEval id]
              let st2 := { st1 with loopIds :=
                st1.loopIds ++ [(id, st1.frame.vars.length)] }
              match args.get? 1 with
              | none => Except.error CErr.indexError
              | some body => do
                  let (asm4, st3) ← evalBlockE fu body asm3 st2
                  let st4 := { st3 with loopIds := st3.loopIds.dropLast }
                  Except.ok (asm4 ++ [Instr.whileEnd id], Ty.BLOCK, st4)
      else if kw = "function" then do
        let _ ← check_arguments args 4 "function"
        match args with
        | [a0, a1, a2, a3] =>
          match a0 with
          | Expr.atom fname => do
            let _ ← nameStartsAlpha fname "Error: function name must start with a letter"
            match (match a2 with
                   | Expr.atom s => tyOfString s
                   | _ => none) with
            | none => Except.error (CErr.typed ("Error: unknown type for function: "
                ++ fname))
            | some rt =>
              match a1 with
              | Expr.paramsArg rawParams => do
                  let params ← checkParamTypes rawParams
                  let fd : FuncDesc :=
                    { param_types := params.map Prod.snd, return_type := rt, fasm := [] }
                  let st1 := { st with functions := fnInsert st.functions fname fd }
                  let st2 : CState := { st1 with
                    frame := { name := fname, params := [], vars := [], return_type := rt },
                    outerFrames := st1.frame :: st1.outerFrames }
                  let _ ← checkParamNames params
                  let st3 := { st2 with frame := { st2.frame with params := params } }
                  let (fnAsm1, st4) ← evalBlockE fu a3 [Instr.functionStart fname] st3
                  let fnAsm2 := fnAsm1 ++ [Instr.functionEnd fname]
                  let st5 := { st4 with functions := fnSetAsm st4.functions fname fnAsm2 }
                  match st5.outerFrames with
                  | [] => Except.error CErr.indexError
                  | f :: rest =>
                      Except.ok (asm, rt, { st5 with frame := f, outerFrames := rest })
              | _ => Except.error CErr.indexError
          | _ => Except.error (CErr.typed "Error: function name must start with a letter")
        | _ => Except.error CErr.indexError
      else if kw = "return" then
        let rt := st.frame.return_type
        let fname := st.frame.name
        if (rt = Ty.UNDEF ∧ args.length ≠ 0) ∨ (rt ≠ Ty.UNDEF ∧ args.length = 0)
            ∨ args.length > 1 then
          Except.error (CErr.typed ("Error: Wrong number of arguments for return: " ++ fname))
        else do
          let frees ← returnFrees args st.frame.vars.flatten 0
          let asm1 := asm ++ frees
          if args.length > 0 then
            match args.head? with
            | none => Except.error CErr.indexError
            | some a0 => do
                let (asm2, t, st1) ← eval fu a0 asm1 st
                if t ≠ rt then
                  Except.error (CErr.typed ("Error: expected type " ++ tyName rt
                    ++ " for return, got " ++ tyName t ++ " in function: " ++ fname))
                else Except.ok (asm2 ++ [Instr.primaryReturn], rt, st1)
          else Except.ok (asm1 ++ [Instr.primaryReturn], rt, st)
      else do
        let (asm1, ts, st1) ← evalArgsPush fu args.reverse asm st
        generalCall kw args ts asm1 st1

/-- eval_block: check for a brace block, push a fresh scope, evaluate the
inner expressions, free every STRING binding of the whole frame, pop the
innermost block's slots, pop the scope. -/
def evalBlockE (fuel : Nat) (b : Expr) (asm : List Instr) (st : CState) :
    Except CErr (List Instr × CState) :=
  match fuel with
  | 0 => Except.error CErr.fuelOut
  | fu + 1 =>
    match b with
    | Expr.blockArg es => do
        let st1 := st.pushBlock
        let (asm1, st2) ← evalSeq fu es asm st1
        let asm2 := asm1 ++ blockFrees st2.frame.vars.flatten 0
        let asm3 := asm2 ++ List.replicate st2.innerBlock.length Instr.popLocal
        Except.ok (asm3, st2.popBlock)
    | _ => Except.error (CErr.typed "Error: block does not start and end with curly braces")

/-- The expression loop of eval_block (and of the driver): evaluate each
expression in order, discarding the types. -/
def evalSeq (fuel : Nat) (es : List Expr) (asm : List Instr) (st : CState) :
    Except CErr (List Instr × CState) :=
  match es with
  | [] => Except.ok (asm, st)
  | e :: rest =>
    match fuel with
    | 0 => Except.error CErr.fuelOut
    | fu + 1 => do
        let (asm1, _, st1) ← eval fu e asm st
        evalSeq fu rest asm1 st1

/-- The argument loop of the general-call case: evaluate each argument
(the caller passes the reversed source list), emit push-result after each,
and collect the types in evaluation order. -/
def evalArgsPush (fuel : Nat) (es : List Expr) (asm : List Instr) (st : CState) :
    Except CErr (List Instr × List Ty × CState) :=
  match es with
  | [] => Except.ok (asm, [], st)
  | a :: rest =>
    match fuel with
    | 0 => Except.error CErr.fuelOut
    | fu + 1 => do
        let (asm1, t, st1) ← eval fu a asm st
        let (asm2, ts, st2) ← evalArgsPush fu rest (asm1 ++ [Instr.pushResult]) st1
        Except.ok (asm2, t :: ts, st2)

end

end ToyCompiler

namespace ToyCompiler

deriving instance DecidableEq for Except

/-! ### Basic lemmas about the embedding -/

/-- Prefixing an assembly buffer onto an evaluator result (expression form). -/
def prependT (asm : List Instr) :
    Except CErr (List Instr × Ty × CState) → Except CErr (List Instr × Ty × CState)
  | Except.ok (d, t, st) => Except.ok (asm ++ d, t, st)
  | Except.error e => Except.error e

/-- Prefixing an assembly buffer onto an evaluator result (block form). -/
def prependP (asm : List Instr) :
    Except CErr (List Instr × CState) → Except CErr (List Instr × CState)
  | Except.ok (d, st) => Except.ok (asm ++ d, st)
  | Except.error e => Except.error e

/-- Prefixing an assembly buffer onto an evaluator result (argument form). -/
def prependA (asm : List Instr) :
    Except CErr (List Instr × List Ty × CState) → Except CErr (List Instr × List Ty × CState)
  | Except.ok (d, ts, st) => Except.ok (asm ++ d, ts, st)
  | Except.error e => Except.error e

@[simp] theorem prependT_ok (asm d : List Instr) (t : Ty) (st : CState) :
    prependT asm (Except.ok (d, t, st)) = Except.ok (asm ++ d, t, st) := rfl

@[simp] theorem prependT_err (asm : List Instr) (e : CErr) :
    prependT asm (Except.error e) = Except.error e := rfl

@[simp] theorem prependP_ok (asm d : List Instr) (st : CState) :
    prependP asm (Except.ok (d, st)) = Except.ok (asm ++ d, st) := rfl

@[simp] theorem prependP_err (asm : List Instr) (e : CErr) :
    prependP asm (Except.error e) = Except.error e := rfl

@[simp] theorem prependA_ok (asm d : List Instr) (ts : List Ty) (st : CState) :
    prependA asm (Except.ok (d, ts, st)) = Except.ok (asm ++ d, ts, st) := rfl

@[simp] theorem prependA_err (asm : List Instr) (e : CErr) :
    prependA asm (Except.error e) = Except.error e := rfl

@[simp] theorem ok_bind {a : A} {f : A → Except CErr B} :
    (Except.ok a >>= f) = f a := rfl

@[simp] theorem err_bind {e : CErr} {f : A → Except CErr B} :
    ((Except.error e : Except CErr A) >>= f) = Except.error e := rfl

/-- Bind respects buffer prefixing when the continuation does. -/
theorem prependT_bind {c : Except CErr A} {f g : A → Except CErr (List Instr × Ty × CState)}
    {asm : List Instr} (h : ∀ a, f a = prependT asm (g a)) :
    (c >>= f) = prependT asm (c >>= g) := by
  cases c with
  | ok a => simpa using h a
  | error e => simp

theorem generalCall_hom (kw : String) (args : List Expr) (ts : List Ty)
    (asm : List Instr) (st : CState) :
    generalCall kw args ts asm st = prependT asm (generalCall kw args ts [] st) := by
  unfold generalCall
  by_cases h1 : kw = "exit"
  · simp only [if_pos h1]
    by_cases h2 : args.length = 0
    · simp only [if_pos h2]; simp
    · simp only [if_neg h2]; exact prependT_bind fun u => by simp
  simp only [if_neg h1]
  by_cases h3 : CALL_EXTENSION_KEYS.contains kw = true
  · simp only [if_pos h3]
    by_cases h4 : kw = "println"
    · simp only [if_pos h4]
      by_cases h5 : args.length > 0
      · simp only [if_pos h5]; exact prependT_bind fun u => by simp
      · simp only [if_neg h5]; simp
    simp only [if_neg h4]
    by_cases h6 : kw = "free_str"
    · simp only [if_pos h6]; exact prependT_bind fun u => by simp
    simp only [if_neg h6]
    by_cases h7 : kw = "print"
    · simp only [if_pos h7]; exact prependT_bind fun u => by simp
    simp only [if_neg h7]
    by_cases h8 : kw = "print_i"
    · simp only [if_pos h8]; exact prependT_bind fun u => by simp
    simp only [if_neg h8]
    by_cases h9 : kw = "println_i"
    · simp only [if_pos h9]; exact prependT_bind fun u => by simp
    simp only [if_neg h9]
    by_cases h10 : kw = "Int2Str"
    · simp only [if_pos h10]; exact prependT_bind fun u => by simp
    simp only [if_neg h10]
    by_cases h11 : kw = "String"
    · simp only [if_pos h11]; exact prependT_bind fun u => by simp
    simp only [if_neg h11]
    by_cases h12 : kw = "Concat"
    · simp only [if_pos h12]; exact prependT_bind fun u => by simp
    simp only [if_neg h12]
    by_cases h13 : kw = "Substr"
    · simp only [if_pos h13]; exact prependT_bind fun u => by simp
    simp only [if_neg h13]
    by_cases h14 : kw = "Reverse"
    · simp only [if_pos h14]; exact prependT_bind fun u => by simp
    simp only [if_neg h14]
    by_cases h15 : kw = "Upper"
    · simp only [if_pos h15]; exact prependT_bind fun u => by simp
    simp only [if_neg h15]
    by_cases h16 : kw = "Lower"
    · simp only [if_pos h16]; exact prependT_bind fun u => by simp
    simp only [if_neg h16]
    by_cases h17 : kw = "len"
    · simp only [if_pos h17]; exact prependT_bind fun u => by simp
    simp only [if_neg h17]
    simp
  simp only [if_neg h3]
  by_cases h20 : kw = "inc" ∨ kw = "dec"
  · simp only [if_pos h20]
    refine prependT_bind fun u => ?_
    cases hh : args.head? with
    | none => rfl
    | some a0 =>
      cases a0 with
      | atom s =>
        cases hv : find_variable s st.frame.vars with
        | none => simp [hv]
        | some pr => rcases pr with ⟨pos, t0⟩; simp [hv]
      | blockArg es => rfl
      | paramsArg ps => rfl
      | call k2 as2 => rfl
  simp only [if_neg h20]
  by_cases h21 : UNARIES_KEYS.contains kw = true
  · simp only [if_pos h21]; exact prependT_bind fun u => by simp
  simp only [if_neg h21]
  by_cases h22 : BINARIES_KEYS.contains kw = true
  · simp only [if_pos h22]; exact prependT_bind fun u => by simp
  simp only [if_neg h22]
  by_cases h23 : COMPARISONS_KEYS.contains kw = true
  · simp only [if_pos h23]; exact prependT_bind fun u => by simp [getUniqueCount]
  simp only [if_neg h23]
  by_cases h24 : LOGICALS_KEYS.contains kw = true
  · simp only [if_pos h24]; exact prependT_bind fun u => by simp [getUniqueCount]
  simp only [if_neg h24]
  by_cases h25 : kw = "check_overflow"
  · simp only [if_pos h25]; exact prependT_bind fun u => by simp [getUniqueCount]
  simp only [if_neg h25]
  by_cases h26 : kw = "break"
  · simp only [if_pos h26]
    refine prependT_bind fun u => ?_
    refine prependT_bind fun fd => ?_
    rcases st.loopIds.getLast? with _ | ⟨id, dp⟩ <;> simp
  simp only [if_neg h26]
  by_cases h27 : kw = "continue"
  · simp only [if_pos h27]
    refine prependT_bind fun u => ?_
    refine prependT_bind fun fd => ?_
    rcases st.loopIds.getLast? with _ | ⟨id, dp⟩ <;> simp
  simp only [if_neg h27]
  cases hf : st.functions.lookup kw with
  | none => rfl
  | some fd => exact prependT_bind fun u => by simp

/-- Buffer prefixing composes (expression form). -/
theorem prependT_append (a b : List Instr) (x : Except CErr (List Instr × Ty × CState)) :
    prependT (a ++ b) x = prependT a (prependT b x) := by
  cases x with
  | ok r => rcases r with ⟨d, t, st⟩; simp [List.append_assoc]
  | error e => simp

/-- Buffer prefixing composes (block form). -/
theorem prependP_append (a b : List Instr) (x : Except CErr (List Instr × CState)) :
    prependP (a ++ b) x = prependP a (prependP b x) := by
  cases x with
  | ok r => rcases r with ⟨d, st⟩; simp [List.append_assoc]
  | error e => simp

/-- Buffer prefixing composes (argument form). -/
theorem prependA_append (a b : List Instr) (x : Except CErr (List Instr × List Ty × CState)) :
    prependA (a ++ b) x = prependA a (prependA b x) := by
  cases x with
  | ok r => rcases r with ⟨d, ts, st⟩; simp [List.append_assoc]
  | error e => simp

theorem bindT_T {p : List Instr} {c : Except CErr (List Instr × Ty × CState)}
    {f g : (List Instr × Ty × CState) → Except CErr (List Instr × Ty × CState)}
    (h : ∀ d t st, f (p ++ d, t, st) = prependT p (g (d, t, st))) :
    (prependT p c >>= f) = prependT p (c >>= g) := by
  cases c with
  | ok r => rcases r with ⟨d, t, st⟩; simpa using h d t st
  | error e => simp

theorem bindP_T {p : List Instr} {c : Except CErr (List Instr × CState)}
    {f g : (List Instr × CState) → Except CErr (List Instr × Ty × CState)}
    (h : ∀ d st, f (p ++ d, st) = prependT p (g (d, st))) :
    (prependP p c >>= f) = prependT p (c >>= g) := by
  cases c with
  | ok r => rcases r with ⟨d, st⟩; simpa using h d st
  | error e => simp

theorem bindA_T {p : List Instr} {c : Except CErr (List Instr × List Ty × CState)}
    {f g : (List Instr × List Ty × CState) → Except CErr (List Instr × Ty × CState)}
    (h : ∀ d ts st, f (p ++ d, ts, st) = prependT p (g (d, ts, st))) :
    (prependA p c >>= f) = prependT p (c >>= g) := by
  cases c with
  | ok r => rcases r with ⟨d, ts, st⟩; simpa using h d ts st
  | error e => simp

theorem bindT_P {p : List Instr} {c : Except CErr (List Instr × Ty × CState)}
    {f g : (List Instr × Ty × CState) → Except CErr (List Instr × CState)}
    (h : ∀ d t st, f (p ++ d, t, st) = prependP p (g (d, t, st))) :
    (prependT p c >>= f) = prependP p (c >>= g) := by
  cases c with
  | ok r => rcases r with ⟨d, t, st⟩; simpa using h d t st
  | error e => simp

theorem bindP_P {p : List Instr} {c : Except CErr (List Instr × CState)}
    {f g : (List Instr × CState) → Except CErr (List Instr × CState)}
    (h : ∀ d st, f (p ++ d, st) = prependP p (g (d, st))) :
    (prependP p c >>= f) = prependP p (c >>= g) := by
  cases c with
  | ok r => rcases r with ⟨d, st⟩; simpa using h d st
  | error e => simp

theorem bindT_A {p : List Instr} {c : Except CErr (List Instr × Ty × CState)}
    {f g : (List Instr × Ty × CState) → Except CErr (List Instr × List Ty × CState)}
    (h : ∀ d t st, f (p ++ d, t, st) = prependA p (g (d, t, st))) :
    (prependT p c >>= f) = prependA p (c >>= g) := by
  cases c with
  | ok r => rcases r with ⟨d, t, st⟩; simpa using h d t st
  | error e => simp

theorem bindA_A {p : List Instr} {c : Except CErr (List Instr × List Ty × CState)}
    {f g : (List Instr × List Ty × CState) → Except CErr (List Instr × List Ty × CState)}
    (h : ∀ d ts st, f (p ++ d, ts, st) = prependA p (g (d, ts, st))) :
    (prependA p c >>= f) = prependA p (c >>= g) := by
  cases c with
  | ok r => rcases r with ⟨d, ts, st⟩; simpa using h d ts st
  | error e => simp

/-- eval and its companions are append-only in the assembly buffer: running on
any buffer equals running on the empty buffer and prefixing. -/
theorem evalHomAll : ∀ fuel : Nat,
    (∀ e asm st, eval fuel e asm st = prependT asm (eval fuel e [] st)) ∧
    (∀ b asm st, evalBlockE fuel b asm st = prependP asm (evalBlockE fuel b [] st)) ∧
    (∀ es asm st, evalSeq fuel es asm st = prependP asm (evalSeq fuel es [] st)) ∧
    (∀ es asm st, evalArgsPush fuel es asm st = prependA asm (evalArgsPush fuel es [] st)) := by
  intro fuel
  induction fuel with
  | zero =>
    refine ⟨fun e asm st => rfl, fun b asm st => rfl, fun es asm st => ?_, fun es asm st => ?_⟩
    · cases es with
      | nil =>
        show Except.ok (asm, st) = prependP asm (Except.ok (([] : List Instr), st))
        simp
      | cons e rest => rfl
    · cases es with
      | nil =>
        show Except.ok (asm, [], st) = prependA asm (Except.ok (([] : List Instr), [], st))
        simp
      | cons a rest => rfl
  | succ fu ih =>
    obtain ⟨ihE, ihB, ihS, ihA⟩ := ih
    have ihE2 : ∀ e p q st, eval fu e (p ++ q) st = prependT p (eval fu e q st) := by
      intro e p q st
      rw [ihE e (p ++ q) st, prependT_append, ← ihE e q st]
    have ihB2 : ∀ b p q st, evalBlockE fu b (p ++ q) st = prependP p (evalBlockE fu b q st) := by
      intro b p q st
      rw [ihB b (p ++ q) st, prependP_append, ← ihB b q st]
    have ihS2 : ∀ es p q st, evalSeq fu es (p ++ q) st = prependP p (evalSeq fu es q st) := by
      intro es p q st
      rw [ihS es (p ++ q) st, prependP_append, ← ihS es q st]
    have ihA2 : ∀ es p q st, evalArgsPush fu es (p ++ q) st = prependA p (evalArgsPush fu es q st) := by
      intro es p q st
      rw [ihA es (p ++ q) st, prependA_append, ← ihA es q st]
    refine ⟨?_, ?_, ?_, ?_⟩
    · intro e asm st
      cases e with
      | blockArg es => rfl
      | paramsArg ps => rfl
      | atom s =>
        simp only [eval]
        by_cases h0 : s = ""
        · simp [h0]
        simp only [if_neg h0]
        cases hv : find_variable s st.frame.vars with
        | some pr => rcases pr with ⟨pos, t⟩; simp [hv]
        | none =>
        cases hp : find_parameter s st.frame.params with
        | some pr => rcases pr with ⟨pos, t⟩; simp [hv, hp]
        | none =>
        by_cases hd : isDigits s = true
        · simp [hv, hp, hd]
        by_cases hm : s.data.head? = some '-' ∧ isDigits (String.mk s.data.tail) = true
        · simp [hv, hp, hd, hm]
        by_cases hq : s.data.head? = some quoteChar ∧ s.data.getLast? = some quoteChar
        · have hqm : quoteChar ≠ '-' := by decide
          simp [hv, hp, hd, hm, hq, hqm, getUniqueCount]
        simp [hv, hp, hd, hm, hq]
      | call kw args =>
        simp only [eval]
        by_cases k1 : kw = "var"
        case pos =>
          simp only [if_pos k1]
          refine prependT_bind fun u => ?_
          rcases args with _ | ⟨a0, _ | ⟨a1, _ | ⟨a2, rest⟩⟩⟩
          all_goals try rfl
          cases a0 with
          | atom name =>
            refine prependT_bind fun u2 => ?_
            by_cases c1 : (st.innerBlock.any fun v => v.1 == name) = true
            · simp [c1]
            simp only [if_neg c1]
            by_cases c2 : (st.frame.params.any fun p => p.1 == name) = true
            · simp [c1, c2]
            simp only [if_neg c2]
            rw [ihE a1 asm st]
            refine bindT_T fun d t st1 => ?_
            by_cases c3 : t = Ty.INT ∨ t = Ty.STRING ∨ t = Ty.STRING_LIT
            · simp [c3, List.append_assoc]
            · simp [c3]
          | blockArg es2 => rfl
          | paramsArg ps2 => rfl
          | call k9 as9 => rfl
        simp only [if_neg k1]
        by_cases k2 : kw = "set"
        case pos =>
          simp only [if_pos k2]
          refine prependT_bind fun u => ?_
          rcases args with _ | ⟨a0, _ | ⟨a1, _ | ⟨a2, rest⟩⟩⟩
          all_goals try rfl
          cases a0 with
          | atom s0 =>
            simp only []
            cases hv : find_variable s0 st.frame.vars with
            | none => rfl
            | some pr =>
              rcases pr with ⟨pos, vtype⟩
              simp only []
              rw [ihE a1 asm st]
              refine bindT_T fun d t st1 => ?_
              by_cases c1 : t = vtype
              · simp only [if_neg (not_not_intro c1)]
                by_cases c2 : t = Ty.STRING
                · simp [c2, List.append_assoc]
                · simp [c2, List.append_assoc]
              · simp only [if_pos c1]; rfl
          | blockArg es2 => rfl
          | paramsArg ps2 => rfl
          | call k9 as9 => rfl
        simp only [if_neg k2]
        by_cases k3 : kw = "block"
        case pos =>
          simp only [if_pos k3]
          cases hh : args.head? with
          | none => rfl
          | some b =>
            simp only []
            rw [ihB b asm st]
            refine bindP_T fun d st1 => ?_
            simp
        simp only [if_neg k3]
        by_cases k4 : kw = "if"
        case pos =>
          simp only [if_pos k4, getUniqueCount]
          cases hh : args.head? with
          | none => rfl
          | some c =>
            simp only []
            rw [ihE c asm]
            refine bindT_T fun d t st1 => ?_
            by_cases c1 : t = Ty.INT
            case neg => simp only [if_pos c1]; rfl
            simp only [if_neg (not_not_intro c1)]
            cases hg1 : args.get? 1 with
            | none => rfl
            | some thenB =>
              simp only [List.append_assoc, List.cons_append, List.nil_append]
              rw [ihB2 thenB asm]
              refine bindP_T fun d2 st2 => ?_
              by_cases c2 : args.length = 3
              case neg =>
                simp only [if_neg c2]
                simp [List.append_assoc]
              simp only [if_pos c2]
              cases hg2 : args.get? 2 with
              | none => rfl
              | some elseB =>
                simp only [List.append_assoc, List.cons_append, List.nil_append]
                rw [ihB2 elseB asm]
                refine bindP_T fun d3 st3 => ?_
                simp [List.append_assoc]
        simp only [if_neg k4]
        by_cases k5 : kw = "while"
        case pos =>
          simp only [if_pos k5, getUniqueCount, List.nil_append]
          cases hh : args.head? with
          | none => rfl
          | some c =>
            simp only []
            rw [ihE2 c asm]
            refine bindT_T fun d t st1 => ?_
            by_cases c1 : t = Ty.INT
            case neg => simp only [if_pos c1]; rfl
            simp only [if_neg (not_not_intro c1)]
            cases hg1 : args.get? 1 with
            | none => rfl
            | some body =>
              simp only [List.append_assoc, List.cons_append, List.nil_append]
              rw [ihB2 body asm]
              refine bindP_T fun d2 st2 => ?_
              simp [List.append_assoc]
        simp only [if_neg k5]
        by_cases k6 : kw = "function"
        case pos =>
          simp only [if_pos k6]
          refine prependT_bind fun u => ?_
          rcases args with _ | ⟨a0, _ | ⟨a1, _ | ⟨a2, _ | ⟨a3, _ | ⟨a4, rest⟩⟩⟩⟩⟩
          all_goals try rfl
          cases a0 with
          | atom fname =>
            refine prependT_bind fun u2 => ?_
            cases a2 with
            | atom rts =>
              simp only []
              cases hty : tyOfString rts with
              | none => rfl
              | some rt =>
                simp only []
                cases a1 with
                | paramsArg rawPs =>
                  refine prependT_bind fun params => ?_
                  refine prependT_bind fun u3 => ?_
                  refine prependT_bind fun pr => ?_
                  rcases pr with ⟨fnAsm1, st4⟩
                  simp only []
                  cases hof : st4.outerFrames with
                  | nil => rfl
                  | cons f rest2 => simp [hof]
                | atom z => rfl
                | blockArg z => rfl
                | call z1 z2 => rfl
            | blockArg z => rfl
            | paramsArg z => rfl
            | call z1 z2 => rfl
          | blockArg es2 => rfl
          | paramsArg ps2 => rfl
          | call k9 as9 => rfl
        simp only [if_neg k6]
        by_cases k7 : kw = "return"
        case pos =>
          simp only [if_pos k7, List.nil_append]
          by_cases c1 : (st.frame.return_type = Ty.UNDEF ∧ args.length ≠ 0) ∨
            (st.frame.return_type ≠ Ty.UNDEF ∧ args.length = 0) ∨ args.length > 1
          · simp only [if_pos c1]; rfl
          simp only [if_neg c1]
          refine prependT_bind fun frees => ?_
          by_cases c2 : args.length > 0
          case neg =>
            simp only [if_neg c2]
            simp [List.append_assoc]
          simp only [if_pos c2]
          cases hh : args.head? with
          | none => rfl
          | some a0 =>
            simp only []
            rw [ihE2 a0 asm frees st]
            refine bindT_T fun d t st1 => ?_
            by_cases c3 : t = st.frame.return_type
            · simp only [if_neg (not_not_intro c3)]
              simp [List.append_assoc]
            · simp only [if_pos c3]; rfl
        simp only [if_neg k7, List.nil_append]
        rw [ihA args.reverse asm st]
        refine bindA_T fun d ts st1 => ?_
        rw [generalCall_hom kw args ts (asm ++ d) st1,
          generalCall_hom kw args ts d st1]
        exact prependT_append asm d _
    · intro b asm st
      cases b with
      | blockArg es =>
        simp only [evalBlockE]
        rw [ihS es asm st.pushBlock]
        refine bindP_P fun d st2 => ?_
        simp [List.append_assoc]
      | atom s => rfl
      | paramsArg ps => rfl
      | call k9 as9 => rfl
    · intro es asm st
      cases es with
      | nil =>
        show Except.ok (asm, st) = prependP asm (Except.ok (([] : List Instr), st))
        simp
      | cons e rest =>
        show (eval fu e asm st >>= fun r => evalSeq fu rest r.1 r.2.2) =
          prependP asm (eval fu e [] st >>= fun r => evalSeq fu rest r.1 r.2.2)
        rw [ihE e asm st]
        refine bindT_P fun d t st1 => ?_
        exact ihS2 rest asm d st1
    · intro es asm st
      cases es with
      | nil =>
        show Except.ok (asm, [], st) = prependA asm (Except.ok (([] : List Instr), [], st))
        simp
      | cons a rest =>
        show (eval fu a asm st >>= fun r =>
            evalArgsPush fu rest (r.1 ++ [Instr.pushResult]) r.2.2 >>= fun r2 =>
              Except.ok (r2.1, r.2.1 :: r2.2.1, r2.2.2)) =
          prependA asm (eval fu a [] st >>= fun r =>
            evalArgsPush fu rest (r.1 ++ [Instr.pushResult]) r.2.2 >>= fun r2 =>
              Except.ok (r2.1, r.2.1 :: r2.2.1, r2.2.2))
        rw [ihE a asm st]
        refine bindT_A fun d t st1 => ?_
        rw [List.append_assoc asm d [Instr.pushResult], ihA2 rest asm (d ++ [Instr.pushResult]) st1]
        refine bindA_A fun d2 ts st2 => ?_
        simp

/-! ### Preservation of the loop stack -/

/-- The loop stack of the result state equals that of st (expression form). -/
def preservesT (st : CState) : Except CErr (List Instr × Ty × CState) → Prop
  | Except.ok (_, _, st1) => st1.loopIds = st.loopIds
  | Except.error _ => True

/-- The loop stack of the result state equals that of st (block form). -/
def preservesP (st : CState) : Except CErr (List Instr × CState) → Prop
  | Except.ok (_, st1) => st1.loopIds = st.loopIds
  | Except.error _ => True

/-- The loop stack of the result state equals that of st (argument form). -/
def preservesA (st : CState) : Except CErr (List Instr × List Ty × CState) → Prop
  | Except.ok (_, _, st1) => st1.loopIds = st.loopIds
  | Except.error _ => True

@[simp] theorem preservesT_ok (st : CState) (d : List Instr) (t : Ty) (st1 : CState) :
    preservesT st (Except.ok (d, t, st1)) = (st1.loopIds = st.loopIds) := rfl

@[simp] theorem preservesT_err (st : CState) (e : CErr) :
    preservesT st (Except.error e) = True := rfl

@[simp] theorem preservesP_ok (st : CState) (d : List Instr) (st1 : CState) :
    preservesP st (Except.ok (d, st1)) = (st1.loopIds = st.loopIds) := rfl

@[simp] theorem preservesP_err (st : CState) (e : CErr) :
    preservesP st (Except.error e) = True := rfl

@[simp] theorem preservesA_ok (st : CState) (d : List Instr) (ts : List Ty) (st1 : CState) :
    preservesA st (Except.ok (d, ts, st1)) = (st1.loopIds = st.loopIds) := rfl

@[simp] theorem preservesA_err (st : CState) (e : CErr) :
    preservesA st (Except.error e) = True := rfl

@[simp] theorem pushBlock_loopIds (st : CState) : st.pushBlock.loopIds = st.loopIds := rfl

@[simp] theorem popBlock_loopIds (st : CState) : st.popBlock.loopIds = st.loopIds := rfl

@[simp] theorem setInnerBlock_loopIds (st : CState) (b : List Binding) :
    (st.setInnerBlock b).loopIds = st.loopIds := rfl

theorem preservesT_of_eq {st1 st : CState} {x : Except CErr (List Instr × Ty × CState)}
    (he : st1.loopIds = st.loopIds) (h : preservesT st1 x) : preservesT st x := by
  cases x with
  | ok r => rcases r with ⟨d, t, st2⟩; simp only [preservesT_ok] at h ⊢; rw [h, he]
  | error e => simp

theorem preservesP_of_eq {st1 st : CState} {x : Except CErr (List Instr × CState)}
    (he : st1.loopIds = st.loopIds) (h : preservesP st1 x) : preservesP st x := by
  cases x with
  | ok r => rcases r with ⟨d, st2⟩; simp only [preservesP_ok] at h ⊢; rw [h, he]
  | error e => simp

theorem preservesA_of_eq {st1 st : CState} {x : Except CErr (List Instr × List Ty × CState)}
    (he : st1.loopIds = st.loopIds) (h : preservesA st1 x) : preservesA st x := by
  cases x with
  | ok r => rcases r with ⟨d, ts, st2⟩; simp only [preservesA_ok] at h ⊢; rw [h, he]
  | error e => simp

theorem pbindPure_T {st : CState} {c : Except CErr A}
    {f : A → Except CErr (List Instr × Ty × CState)}
    (hf : ∀ a, preservesT st (f a)) : preservesT st (c >>= f) := by
  cases c with
  | ok a => simpa using hf a
  | error e => simp

theorem pbindT_T {st st2 : CState} {c : Except CErr (List Instr × Ty × CState)}
    {f : (List Instr × Ty × CState) → Except CErr (List Instr × Ty × CState)}
    (hc : preservesT st2 c)
    (hf : ∀ d t st3, st3.loopIds = st2.loopIds → preservesT st (f (d, t, st3))) :
    preservesT st (c >>= f) := by
  cases c with
  | ok r =>
    rcases r with ⟨d, t, st3⟩
    simpa using hf d t st3 (by simpa using hc)
  | error e => simp

theorem pbindP_T {st st2 : CState} {c : Except CErr (List Instr × CState)}
    {f : (List Instr × CState) → Except CErr (List Instr × Ty × CState)}
    (hc : preservesP st2 c)
    (hf : ∀ d st3, st3.loopIds = st2.loopIds → preservesT st (f (d, st3))) :
    preservesT st (c >>= f) := by
  cases c with
  | ok r =>
    rcases r with ⟨d, st3⟩
    simpa using hf d st3 (by simpa using hc)
  | error e => simp

theorem pbindA_T {st st2 : CState} {c : Except CErr (List Instr × List Ty × CState)}
    {f : (List Instr × List Ty × CState) → Except CErr (List Instr × Ty × CState)}
    (hc : preservesA st2 c)
    (hf : ∀ d ts st3, st3.loopIds = st2.loopIds → preservesT st (f (d, ts, st3))) :
    preservesT st (c >>= f) := by
  cases c with
  | ok r =>
    rcases r with ⟨d, ts, st3⟩
    simpa using hf d ts st3 (by simpa using hc)
  | error e => simp

theorem pbindT_P {st st2 : CState} {c : Except CErr (List Instr × Ty × CState)}
    {f : (List Instr × Ty × CState) → Except CErr (List Instr × CState)}
    (hc : preservesT st2 c)
    (hf : ∀ d t st3, st3.loopIds = st2.loopIds → preservesP st (f (d, t, st3))) :
    preservesP st (c >>= f) := by
  cases c with
  | ok r =>
    rcases r with ⟨d, t, st3⟩
    simpa using hf d t st3 (by simpa using hc)
  | error e => simp

theorem pbindP_P {st st2 : CState} {c : Except CErr (List Instr × CState)}
    {f : (List Instr × CState) → Except CErr (List Instr × CState)}
    (hc : preservesP st2 c)
    (hf : ∀ d st3, st3.loopIds = st2.loopIds → preservesP st (f (d, st3))) :
    preservesP st (c >>= f) := by
  cases c with
  | ok r =>
    rcases r with ⟨d, st3⟩
    simpa using hf d st3 (by simpa using hc)
  | error e => simp

theorem pbindT_A {st st2 : CState} {c : Except CErr (List Instr × Ty × CState)}
    {f : (List Instr × Ty × CState) → Except CErr (List Instr × List Ty × CState)}
    (hc : preservesT st2 c)
    (hf : ∀ d t st3, st3.loopIds = st2.loopIds → preservesA st (f (d, t, st3))) :
    preservesA st (c >>= f) := by
  cases c with
  | ok r =>
    rcases r with ⟨d, t, st3⟩
    simpa using hf d t st3 (by simpa using hc)
  | error e => simp

theorem pbindA_A {st st2 : CState} {c : Except CErr (List Instr × List Ty × CState)}
    {f : (List Instr × List Ty × CState) → Except CErr (List Instr × List Ty × CState)}
    (hc : preservesA st2 c)
    (hf : ∀ d ts st3, st3.loopIds = st2.loopIds → preservesA st (f (d, ts, st3))) :
    preservesA st (c >>= f) := by
  cases c with
  | ok r =>
    rcases r with ⟨d, ts, st3⟩
    simpa using hf d ts st3 (by simpa using hc)
  | error e => simp

/-- The general-call tail never touches the loop stack. -/
theorem generalCall_preserves (kw : String) (args : List Expr) (ts : List Ty)
    (asm : List Instr) (st : CState) : preservesT st (generalCall kw args ts asm st) := by
  unfold generalCall
  by_cases h1 : kw = "exit"
  · simp only [if_pos h1]
    by_cases h2 : args.length = 0
    · simp [h2]
    · simp only [if_neg h2]
      exact pbindPure_T fun u => by simp
  simp only [if_neg h1]
  by_cases h3 : CALL_EXTENSION_KEYS.contains kw = true
  · simp only [if_pos h3]
    by_cases h4 : kw = "println"
    · simp only [if_pos h4]
      by_cases h5 : args.length > 0
      · simp only [if_pos h5]; exact pbindPure_T fun u => by simp
      · simp [h5]
    simp only [if_neg h4]
    by_cases h6 : kw = "free_str"
    · simp only [if_pos h6]; exact pbindPure_T fun u => by simp
    simp only [if_neg h6]
    by_cases h7 : kw = "print"
    · simp only [if_pos h7]; exact pbindPure_T fun u => by simp
    simp only [if_neg h7]
    by_cases h8 : kw = "print_i"
    · simp only [if_pos h8]; exact pbindPure_T fun u => by simp
    simp only [if_neg h8]
    by_cases h9 : kw = "println_i"
    · simp only [if_pos h9]; exact pbindPure_T fun u => by simp
    simp only [if_neg h9]
    by_cases h10 : kw = "Int2Str"
    · simp only [if_pos h10]; exact pbindPure_T fun u => by simp
    simp only [if_neg h10]
    by_cases h11 : kw = "String"
    · simp only [if_pos h11]; exact pbindPure_T fun u => by simp
    simp only [if_neg h11]
    by_cases h12 : kw = "Concat"
    · simp only [if_pos h12]; exact pbindPure_T fun u => by simp
    simp only [if_neg h12]
    by_cases h13 : kw = "Substr"
    · simp only [if_pos h13]; exact pbindPure_T fun u => by simp
    simp only [if_neg h13]
    by_cases h14 : kw = "Reverse"
    · simp only [if_pos h14]; exact pbindPure_T fun u => by simp
    simp only [if_neg h14]
    by_cases h15 : kw = "Upper"
    · simp only [if_pos h15]; exact pbindPure_T fun u => by simp
    simp only [if_neg h15]
    by_cases h16 : kw = "Lower"
    · simp only [if_pos h16]; exact pbindPure_T fun u => by simp
    simp only [if_neg h16]
    by_cases h17 : kw = "len"
    · simp only [if_pos h17]; exact pbindPure_T fun u => by simp
    simp only [if_neg h17]
    simp
  simp only [if_neg h3]
  by_cases h20 : kw = "inc" ∨ kw = "dec"
  · simp only [if_pos h20]
    refine pbindPure_T fun u => ?_
    cases hh : args.head? with
    | none => simp
    | some a0 =>
      cases a0 with
      | atom s =>
        cases hv : find_variable s st.frame.vars with
        | none => simp [hv]
        | some pr => rcases pr with ⟨pos, t0⟩; simp [hv]
      | blockArg es => simp
      | paramsArg ps => simp
      | call k2 as2 => simp
  simp only [if_neg h20]
  by_cases h21 : UNARIES_KEYS.contains kw = true
  · simp only [if_pos h21]; exact pbindPure_T fun u => by simp
  simp only [if_neg h21]
  by_cases h22 : BINARIES_KEYS.contains kw = true
  · simp only [if_pos h22]; exact pbindPure_T fun u => by simp
  simp only [if_neg h22]
  by_cases h23 : COMPARISONS_KEYS.contains kw = true
  · simp only [if_pos h23]; exact pbindPure_T fun u => by simp [getUniqueCount]
  simp only [if_neg h23]
  by_cases h24 : LOGICALS_KEYS.contains kw = true
  · simp only [if_pos h24]; exact pbindPure_T fun u => by simp [getUniqueCount]
  simp only [if_neg h24]
  by_cases h25 : kw = "check_overflow"
  · simp only [if_pos h25]; exact pbindPure_T fun u => by simp [getUniqueCount]
  simp only [if_neg h25]
  by_cases h26 : kw = "break"
  · simp only [if_pos h26]
    refine pbindPure_T fun u => ?_
    refine pbindPure_T fun fd => ?_
    rcases st.loopIds.getLast? with _ | ⟨id, dp⟩ <;> simp
  simp only [if_neg h26]
  by_cases h27 : kw = "continue"
  · simp only [if_pos h27]
    refine pbindPure_T fun u => ?_
    refine pbindPure_T fun fd => ?_
    rcases st.loopIds.getLast? with _ | ⟨id, dp⟩ <;> simp
  simp only [if_neg h27]
  cases hf : st.functions.lookup kw with
  | none => simp
  | some fd => exact pbindPure_T fun u => by simp

/-- Every evaluator component restores the loop stack: the result state's
loopIds equal the input state's (pushes are always matched by pops). -/
theorem preservesAll : ∀ fuel : Nat,
    (∀ e asm st, preservesT st (eval fuel e asm st)) ∧
    (∀ b asm st, preservesP st (evalBlockE fuel b asm st)) ∧
    (∀ es asm st, preservesP st (evalSeq fuel es asm st)) ∧
    (∀ es asm st, preservesA st (evalArgsPush fuel es asm st)) := by
  intro fuel
  induction fuel with
  | zero =>
    refine ⟨fun e asm st => trivial, fun b asm st => trivial,
      fun es asm st => ?_, fun es asm st => ?_⟩
    · cases es with
      | nil => exact rfl
      | cons e rest => exact trivial
    · cases es with
      | nil => exact rfl
      | cons a rest => exact trivial
  | succ fu ih =>
    obtain ⟨ihE, ihB, ihS, ihA⟩ := ih
    refine ⟨?_, ?_, ?_, ?_⟩
    · intro e asm st
      cases e with
      | blockArg es => exact trivial
      | paramsArg ps => exact trivial
      | atom s =>
        simp only [eval]
        by_cases h0 : s = ""
        · simp [h0]
        simp only [if_neg h0]
        cases hv : find_variable s st.frame.vars with
        | some pr => rcases pr with ⟨pos, t⟩; simp
        | none =>
        cases hp : find_parameter s st.frame.params with
        | some pr => rcases pr with ⟨pos, t⟩; simp
        | none =>
        by_cases hd : isDigits s = true
        · simp [hd]
        by_cases hm : s.data.head? = some '-' ∧ isDigits (String.mk s.data.tail) = true
        · simp [hd, hm]
        by_cases hq : s.data.head? = some quoteChar ∧ s.data.getLast? = some quoteChar
        · have hqm : quoteChar ≠ '-' := by decide
          simp [hd, hm, hq, hqm, getUniqueCount]
        simp [hd, hm, hq]
      | call kw args =>
        simp only [eval]
        by_cases k1 : kw = "var"
        case pos =>
          simp only [if_pos k1]
          refine pbindPure_T fun u => ?_
          rcases args with _ | ⟨a0, _ | ⟨a1, _ | ⟨a2, rest⟩⟩⟩
          all_goals try exact trivial
          cases a0 with
          | atom name =>
            refine pbindPure_T fun u2 => ?_
            by_cases c1 : (st.innerBlock.any fun v => v.1 == name) = true
            · simp [c1]
            simp only [if_neg c1]
            by_cases c2 : (st.frame.params.any fun p => p.1 == name) = true
            · simp [c2]
            simp only [if_neg c2]
            refine pbindT_T (ihE a1 asm st) fun d t st1 h1 => ?_
            by_cases c3 : t = Ty.INT ∨ t = Ty.STRING ∨ t = Ty.STRING_LIT
            · by_cases c4 : t = Ty.STRING
              · simp only [if_pos c3, if_pos c4]; simp [h1]
              · simp only [if_pos c3, if_neg c4]; simp [h1]
            · simp only [if_neg c3]; exact trivial
          | blockArg es2 => exact trivial
          | paramsArg ps2 => exact trivial
          | call k9 as9 => exact trivial
        simp only [if_neg k1]
        by_cases k2 : kw = "set"
        case pos =>
          simp only [if_pos k2]
          refine pbindPure_T fun u => ?_
          rcases args with _ | ⟨a0, _ | ⟨a1, _ | ⟨a2, rest⟩⟩⟩
          all_goals try exact trivial
          cases a0 with
          | atom s0 =>
            simp only []
            cases hv : find_variable s0 st.frame.vars with
            | none => exact trivial
            | some pr =>
              rcases pr with ⟨pos, vtype⟩
              simp only []
              refine pbindT_T (ihE a1 asm st) fun d t st1 h1 => ?_
              by_cases c1 : t = vtype
              · simp only [if_neg (not_not_intro c1)]
                by_cases c2 : t = Ty.STRING
                · simp [c2, h1]
                · simp [c2, h1]
              · simp only [if_pos c1]; exact trivial
          | blockArg es2 => exact trivial
          | paramsArg ps2 => exact trivial
          | call k9 as9 => exact trivial
        simp only [if_neg k2]
        by_cases k3 : kw = "block"
        case pos =>
          simp only [if_pos k3]
          cases hh : args.head? with
          | none => exact trivial
          | some b =>
            simp only []
            refine pbindP_T (ihB b asm st) fun d st1 h1 => ?_
            simpa using h1
        simp only [if_neg k3]
        by_cases k4 : kw = "if"
        case pos =>
          simp only [if_pos k4, getUniqueCount]
          cases hh : args.head? with
          | none => exact trivial
          | some c =>
            simp only []
            refine pbindT_T (ihE c asm _) fun d t st1 h1 => ?_
            by_cases c1 : t = Ty.INT
            case neg => simp only [if_pos c1]; exact trivial
            simp only [if_neg (not_not_intro c1)]
            cases hg1 : args.get? 1 with
            | none => exact trivial
            | some thenB =>
              simp only []
              refine pbindP_T (ihB thenB _ st1) fun d2 st2 h2 => ?_
              by_cases c2 : args.length = 3
              case neg =>
                simp only [if_neg c2]
                simp only [preservesT_ok]
                rw [h2, h1]
              simp only [if_pos c2]
              cases hg2 : args.get? 2 with
              | none => exact trivial
              | some elseB =>
                simp only []
                refine pbindP_T (ihB elseB _ st2) fun d3 st3 h3 => ?_
                simp only [preservesT_ok]
                rw [h3, h2, h1]
        simp only [if_neg k4]
        by_cases k5 : kw = "while"
        case pos =>
          simp only [if_pos k5, getUniqueCount]
          cases hh : args.head? with
          | none => exact trivial
          | some c =>
            simp only []
            refine pbindT_T (ihE c _ _) fun d t st1 h1 => ?_
            by_cases c1 : t = Ty.INT
            case neg => simp only [if_pos c1]; exact trivial
            simp only [if_neg (not_not_intro c1)]
            cases hg1 : args.get? 1 with
            | none => exact trivial
            | some body =>
              simp only []
              refine pbindP_T (ihB body _ _) fun d2 st3 h3 => ?_
              simp only [preservesT_ok]
              simp only [] at h3
              rw [h3]
              simp only [List.dropLast_concat]
              rw [h1]
        simp only [if_neg k5]
        by_cases k6 : kw = "function"
        case pos =>
          simp only [if_pos k6]
          refine pbindPure_T fun u => ?_
          rcases args with _ | ⟨a0, _ | ⟨a1, _ | ⟨a2, _ | ⟨a3, _ | ⟨a4, rest⟩⟩⟩⟩⟩
          all_goals try exact trivial
          cases a0 with
          | atom fname =>
            refine pbindPure_T fun u2 => ?_
            cases a2 with
            | atom rts =>
              simp only []
              cases hty : tyOfString rts with
              | none => exact trivial
              | some rt =>
                simp only []
                cases a1 with
                | paramsArg rawPs =>
                  refine pbindPure_T fun params => ?_
                  refine pbindPure_T fun u3 => ?_
                  refine pbindP_T (ihB a3 [Instr.functionStart fname] _) fun dB st4 h4 => ?_
                  simp only []
                  cases hof : st4.outerFrames with
                  | nil => exact trivial
                  | cons f rest2 =>
                    simp only [preservesT_ok]
                    simpa using h4
                | atom z => exact trivial
                | blockArg z => exact trivial
                | call z1 z2 => exact trivial
            | blockArg z => exact trivial
            | paramsArg z => exact trivial
            | call z1 z2 => exact trivial
          | blockArg es2 => exact trivial
          | paramsArg ps2 => exact trivial
          | call k9 as9 => exact trivial
        simp only [if_neg k6]
        by_cases k7 : kw = "return"
        case pos =>
          simp only [if_pos k7]
          by_cases c1 : (st.frame.return_type = Ty.UNDEF ∧ args.length ≠ 0) ∨
            (st.frame.return_type ≠ Ty.UNDEF ∧ args.length = 0) ∨ args.length > 1
          · simp only [if_pos c1]; exact trivial
          simp only [if_neg c1]
          refine pbindPure_T fun frees => ?_
          by_cases c2 : args.length > 0
          case neg => simp [c2]
          simp only [if_pos c2]
          cases hh : args.head? with
          | none => exact trivial
          | some a0 =>
            simp only []
            refine pbindT_T (ihE a0 _ st) fun d t st1 h1 => ?_
            by_cases c3 : t = st.frame.return_type
            · simp only [if_neg (not_not_intro c3)]
              simp [h1]
            · simp only [if_pos c3]; exact trivial
        simp only [if_neg k7]
        refine pbindA_T (ihA args.reverse asm st) fun d ts st1 h1 => ?_
        exact preservesT_of_eq h1 (generalCall_preserves kw args ts d st1)
    · intro b asm st
      cases b with
      | blockArg es =>
        simp only [evalBlockE]
        refine pbindP_P (ihS es asm st.pushBlock) fun d st2 h2 => ?_
        simpa using h2
      | atom s => exact trivial
      | paramsArg ps => exact trivial
      | call k9 as9 => exact trivial
    · intro es asm st
      cases es with
      | nil => exact rfl
      | cons e rest =>
        show preservesP st (eval fu e asm st >>= fun r => evalSeq fu rest r.1 r.2.2)
        refine pbindT_P (ihE e asm st) fun d t st1 h1 => ?_
        exact preservesP_of_eq h1 (ihS rest d st1)
    · intro es asm st
      cases es with
      | nil => exact rfl
      | cons a rest =>
        show preservesA st (eval fu a asm st >>= fun r =>
          evalArgsPush fu rest (r.1 ++ [Instr.pushResult]) r.2.2 >>= fun r2 =>
            Except.ok (r2.1, r.2.1 :: r2.2.1, r2.2.2))
        refine pbindT_A (ihE a asm st) fun d t st1 h1 => ?_
        refine pbindA_A (ihA rest (d ++ [Instr.pushResult]) st1) fun d2 ts2 st2 h2 => ?_
        simp only [preservesA_ok]
        rw [h2, h1]

/-! ### Helper lemmas for the claims -/

@[simp] theorem innerBlock_setInnerBlock (st : CState) (b : List Binding) :
    (st.setInnerBlock b).innerBlock = b := by
  simp [CState.innerBlock, CState.setInnerBlock, List.getLastD_concat]

theorem setInnerBlock_setInnerBlock (st : CState) (b b2 : List Binding) :
    (st.setInnerBlock b).setInnerBlock b2 = st.setInnerBlock b2 := by
  simp [CState.setInnerBlock, List.dropLast_concat]

theorem evalArgsPush_nil (fuel : Nat) (asm : List Instr) (st : CState) :
    evalArgsPush fuel [] asm st = Except.ok (asm, [], st) := by
  cases fuel <;> rfl

/-- evalArgsPush yields one collected type per argument. -/
theorem evalArgsPush_length : ∀ (es : List Expr) (fuel : Nat) (asm : List Instr) (st : CState)
    (a : List Instr) (ts : List Ty) (st2 : CState),
    evalArgsPush fuel es asm st = Except.ok (a, ts, st2) → ts.length = es.length := by
  intro es
  induction es with
  | nil =>
    intro fuel asm st a ts st2 h
    rw [evalArgsPush_nil] at h
    injection h with h2
    injection h2 with ha h3
    injection h3 with hts hst
    simp [← hts]
  | cons e rest ih =>
    intro fuel asm st a ts st2 h
    cases fuel with
    | zero => exact Except.noConfusion h
    | succ fu =>
      have hdef : evalArgsPush (fu + 1) (e :: rest) asm st =
          (eval fu e asm st >>= fun r =>
            evalArgsPush fu rest (r.1 ++ [Instr.pushResult]) r.2.2 >>= fun r2 =>
              Except.ok (r2.1, r.2.1 :: r2.2.1, r2.2.2)) := rfl
      rw [hdef] at h
      cases he : eval fu e asm st with
      | error er => rw [he] at h; simp at h
      | ok r =>
        rcases r with ⟨d, t, st1⟩
        rw [he] at h
        simp only [ok_bind] at h
        cases ha2 : evalArgsPush fu rest (d ++ [Instr.pushResult]) st1 with
        | error er => rw [ha2] at h; simp at h
        | ok r2 =>
          rcases r2 with ⟨d2, ts2, st3⟩
          rw [ha2] at h
          simp only [ok_bind] at h
          injection h with h2
          injection h2 with hd2 h3
          injection h3 with hts hst
          rw [← hts]
          simp [ih fu (d ++ [Instr.pushResult]) st1 d2 ts2 st3 ha2]

/-- Peeling the last (source-first) argument off the evaluation loop: the
last processed element contributes the final eval output and push, and its
type lands at the end of the collected list. -/
theorem evalArgsPush_snoc : ∀ (es : List Expr) (a : Expr) (fuel : Nat) (asm : List Instr)
    (st : CState) (asmf : List Instr) (tsf : List Ty) (stf : CState),
    evalArgsPush fuel (es ++ [a]) asm st = Except.ok (asmf, tsf, stf) →
    ∃ g asm1 ts1 st1 asmA tA,
      evalArgsPush fuel es asm st = Except.ok (asm1, ts1, st1) ∧
      eval g a asm1 st1 = Except.ok (asmA, tA, stf) ∧
      asmf = asmA ++ [Instr.pushResult] ∧ tsf = ts1 ++ [tA] := by
  intro es
  induction es with
  | nil =>
    intro a fuel asm st asmf tsf stf h
    simp only [List.nil_append] at h
    cases fuel with
    | zero => exact Except.noConfusion h
    | succ fu =>
      have hdef : evalArgsPush (fu + 1) [a] asm st =
          (eval fu a asm st >>= fun r =>
            evalArgsPush fu [] (r.1 ++ [Instr.pushResult]) r.2.2 >>= fun r2 =>
              Except.ok (r2.1, r.2.1 :: r2.2.1, r2.2.2)) := rfl
      rw [hdef] at h
      cases he : eval fu a asm st with
      | error er => rw [he] at h; simp at h
      | ok r =>
        rcases r with ⟨d, t, st1⟩
        rw [he] at h
        simp only [ok_bind] at h
        rw [evalArgsPush_nil] at h
        simp only [ok_bind] at h
        have h2 : (Except.ok (d ++ [Instr.pushResult], [t], st1) :
            Except CErr (List Instr × List Ty × CState)) = Except.ok (asmf, tsf, stf) := h
        injection h2 with h3
        injection h3 with hasm h4
        injection h4 with hts hst
        refine ⟨fu, asm, [], st, d, t, rfl, ?_, hasm.symm, by simp [← hts]⟩
        rw [he, hst]
  | cons e rest ih =>
    intro a fuel asm st asmf tsf stf h
    cases fuel with
    | zero => exact Except.noConfusion h
    | succ fu =>
      have hdef : evalArgsPush (fu + 1) ((e :: rest) ++ [a]) asm st =
          (eval fu e asm st >>= fun r =>
            evalArgsPush fu (rest ++ [a]) (r.1 ++ [Instr.pushResult]) r.2.2 >>= fun r2 =>
              Except.ok (r2.1, r.2.1 :: r2.2.1, r2.2.2)) := rfl
      rw [hdef] at h
      cases he : eval fu e asm st with
      | error er => rw [he] at h; simp at h
      | ok r =>
        rcases r with ⟨d, t, st1⟩
        rw [he] at h
        simp only [ok_bind] at h
        cases ha2 : evalArgsPush fu (rest ++ [a]) (d ++ [Instr.pushResult]) st1 with
        | error er => rw [ha2] at h; simp at h
        | ok r2 =>
          rcases r2 with ⟨d2, ts2, st3⟩
          rw [ha2] at h
          simp only [ok_bind] at h
          injection h with h2
          injection h2 with hd2 h3
          injection h3 with hts hst
          obtain ⟨g, asm1, ts1, st4, asmA, tA, hh1, hh2, hh3, hh4⟩ :=
            ih a fu (d ++ [Instr.pushResult]) st1 d2 ts2 st3 ha2
          have hmain : evalArgsPush (fu + 1) (e :: rest) asm st =
              Except.ok (asm1, t :: ts1, st4) := by
            have hdef2 : evalArgsPush (fu + 1) (e :: rest) asm st =
                (eval fu e asm st >>= fun r =>
                  evalArgsPush fu rest (r.1 ++ [Instr.pushResult]) r.2.2 >>= fun r2 =>
                    Except.ok (r2.1, r.2.1 :: r2.2.1, r2.2.2)) := rfl
            rw [hdef2, he]
            simp only [ok_bind]
            rw [hh1]
            rfl
          refine ⟨g, asm1, t :: ts1, st4, asmA, tA, hmain, ?_, ?_, ?_⟩
          · rw [hh2, hst]
          · rw [← hd2, hh3]
          · rw [← hts, hh4]
            rfl

/-- checkAux succeeds exactly when the two lists match pointwise. -/
theorem checkAux_ok_iff (kw : String) : ∀ (l : List Ty) (es : List ExpTy) (i : Nat),
    checkAux kw l es i = Except.ok () ↔
      List.Forall₂ (fun t ex => expMatches ex t = true) l es := by
  intro l
  induction l with
  | nil =>
    intro es i
    cases es with
    | nil => simp [checkAux]
    | cons ex es2 =>
      constructor
      · intro h; exact Except.noConfusion h
      · intro h; cases h
  | cons t ts ihl =>
    intro es i
    cases es with
    | nil =>
      constructor
      · intro h; exact Except.noConfusion h
      · intro h; cases h
    | cons ex es2 =>
      by_cases hm : expMatches ex t = true
      · simp [checkAux, hm, ihl es2 (i + 1), List.forall₂_cons]
      · simp [checkAux, hm, List.forall₂_cons]

/-- check_arg_types succeeds exactly when the reversed observed-type list
matches the expected signature pointwise (so expected entry i is paired with
the i-th source argument's type). -/
theorem check_arg_types_ok_iff (kw : String) (arg_types : List Ty) (expected : List ExpTy) :
    check_arg_types kw arg_types expected = Except.ok () ↔
      List.Forall₂ (fun t ex => expMatches ex t = true) arg_types.reverse expected := by
  unfold check_arg_types
  by_cases hl : arg_types.length ≠ expected.length
  · simp only [if_pos hl]
    constructor
    · intro h; exact Except.noConfusion h
    · intro hf
      exact absurd (by simpa using hf.length_eq) hl
  · simp only [if_neg hl]
    exact checkAux_ok_iff kw arg_types.reverse expected 0

/-- An atom that evaluates to type STRING must have resolved as a variable or
parameter, leaving the compiler state unchanged. -/
theorem atom_eval_STRING_state (fuel : Nat) (s : String) (asm : List Instr) (st : CState)
    (ay : List Instr) (sty : CState)
    (h : eval fuel (Expr.atom s) asm st = Except.ok (ay, Ty.STRING, sty)) : sty = st := by
  cases fuel with
  | zero => exact Except.noConfusion h
  | succ fu =>
    simp only [eval] at h
    by_cases h0 : s = ""
    · rw [if_pos h0] at h; simp at h
    rw [if_neg h0] at h
    cases hv : find_variable s st.frame.vars with
    | some pr =>
      rcases pr with ⟨pos, t⟩
      rw [hv] at h
      simp only [] at h
      injection h with hA
      injection hA with h1 hB
      injection hB with h2 h3
      exact h3.symm
    | none =>
      rw [hv] at h
      simp only [] at h
      cases hp : find_parameter s st.frame.params with
      | some pr =>
        rcases pr with ⟨pos, t⟩
        rw [hp] at h
        simp only [] at h
        injection h with hA
        injection hA with h1 hB
        injection hB with h2 h3
        exact h3.symm
      | none =>
        rw [hp] at h
        simp only [] at h
        by_cases hd : isDigits s = true
        · rw [if_pos hd] at h; simp at h
        rw [if_neg hd] at h
        by_cases hm : s.data.head? = some '-' ∧ isDigits (String.mk s.data.tail) = true
        · rw [if_pos hm] at h; simp at h
        rw [if_neg hm] at h
        by_cases hq : s.data.head? = some quoteChar ∧ s.data.getLast? = some quoteChar
        · rw [if_pos hq] at h; simp [getUniqueCount] at h
        · rw [if_neg hq] at h; simp at h

/-- The state in which a function body is evaluated: the new frame on top,
the function pre-registered, everything else (loop stack included) carried
over from the definition site. -/
def functionEntryState (st : CState) (fname : String) (params : List Binding) (rt : Ty) :
    CState :=
  { frame := { name := fname, params := params, vars := [], return_type := rt }
    outerFrames := st.frame :: st.outerFrames
    uniqueCounter := st.uniqueCounter
    loopIds := st.loopIds
    functions := fnInsert st.functions fname
      { param_types := params.map Prod.snd, return_type := rt, fasm := [] }
    literals := st.literals }

/-- Unfolding of the function-definition case of eval. -/
theorem eval_function_unfold (fuel : Nat) (nm : String) (ps : List (String × String))
    (rts : String) (body : Expr) (asm : List Instr) (st : CState) :
    eval (fuel + 1) (Expr.call "function"
        [Expr.atom nm, Expr.paramsArg ps, Expr.atom rts, body]) asm st =
      (nameStartsAlpha nm "Error: function name must start with a letter" >>= fun _ =>
        match tyOfString rts with
        | none => Except.error (CErr.typed ("Error: unknown type for function: " ++ nm))
        | some rt =>
          checkParamTypes ps >>= fun params =>
          checkParamNames params >>= fun _ =>
          evalBlockE fuel body [Instr.functionStart nm]
              (functionEntryState st nm params rt) >>= fun r =>
          match r.2.outerFrames with
          | [] => Except.error CErr.indexError
          | f :: rest => Except.ok (asm, rt,
              { frame := f, outerFrames := rest, uniqueCounter := r.2.uniqueCounter,
                loopIds := r.2.loopIds,
                functions := fnSetAsm r.2.functions nm (r.1 ++ [Instr.functionEnd nm]),
                literals := r.2.literals })) := rfl

/-! ### The claims -/

/-- A state whose frame holds one STRING binding s, as produced by evaluating
var(s, String(...)) at top level. -/
def stC1 : CState :=
  { initState with frame := { initState.frame with vars := [[("s", Ty.STRING)]] } }

/-- C1.  The claim says a zero-argument return in a frame with return type
UNDEF emits a free for every STRING-typed binding of the frame.  The code
instead raises IndexError: the free loop compares each STRING binding's name
against args[0], which does not exist for a zero-argument return.  This
theorem evaluates the code at the failing input: return() in a frame holding
the STRING binding s aborts with the uncaught IndexError instead of emitting
the free sequence. -/
theorem return_zero_args_with_string_binding_crashes :
    eval 5 (Expr.call "return" []) [] stC1 = Except.error CErr.indexError := by decide

/-- C2.  The claim says the post-call cleanup emits free_str exactly for the
source arguments whose static type is STRING and whose sub-expression is a
compound call.  In Substr(Int2Str(7), 1, 2) the first source argument is a
STRING-typed compound call, yet the emitted cleanup (the last three
instructions) is clear-stack(4) three times and no free_str: free_arguments
pairs args (source order) with arg_types (evaluation order, i.e. reversed),
so entry 0 is checked against the type of the last source argument (INT). -/
theorem free_arguments_misaligned_on_substr :
    eval 10 (Expr.call "Substr"
        [Expr.call "Int2Str" [Expr.atom "7"], Expr.atom "1", Expr.atom "2"]) [] initState =
      Except.ok ([Instr.literal "2", Instr.pushResult, Instr.literal "1", Instr.pushResult,
        Instr.literal "7", Instr.pushResult, Instr.callExt "Int2Str", Instr.clearStack 4,
        Instr.pushResult, Instr.callExt "Substr", Instr.clearStack 4, Instr.clearStack 4,
        Instr.clearStack 4], Ty.STRING, initState) := by decide

/-- The nested-block program block({ var(s, String(...)) block({ var(t, 1) }) }). -/
def progC3 : Expr :=
  Expr.call "block" [Expr.blockArg
    [Expr.call "var" [Expr.atom "s", Expr.call "String" [Expr.atom "\x27a\x27"]],
     Expr.call "block" [Expr.blockArg [Expr.call "var" [Expr.atom "t", Expr.atom "1"]]]]]

/-- C3.  The claim says a STRING binding is freed exactly once per path and an
outer-block binding is not freed by a nested block's exit.  In the program
progC3 the binding s (slot 0) is freed at the inner block's exit (the block
exit free pass walks the whole frame and does not retype what it frees) and
again at the outer block's exit: the free sequence get-local(4), push,
free_str appears twice, as the full emitted buffer shows. -/
theorem nested_block_exit_frees_outer_string_twice :
    eval 20 progC3 [] initState =
      Except.ok ([Instr.literal "string_1", Instr.pushResult, Instr.callExt "String",
        Instr.clearStack 4, Instr.pushResult, Instr.literal "1", Instr.pushResult,
        Instr.getLocal 4, Instr.pushResult, Instr.callExt "free_str", Instr.popLocal,
        Instr.getLocal 4, Instr.pushResult, Instr.callExt "free_str", Instr.popLocal],
        Ty.BLOCK,
        { initState with uniqueCounter := 1, literals := [("string_1", "a")] }) := by
  decide

/-- A state with a STRING binding y in an outer block and an empty innermost
block, as at the start of a nested block under block({ var(y, ...) ... }). -/
def stY : CState :=
  { initState with frame := { initState.frame with vars := [[("y", Ty.STRING)], []] } }

/-- C4 (counterexample).  The claim says that after a successful var(x, y)
with y a STRING-typed identifier, y's binding is retyped UNDEF wherever it
lives, an outer block included.  Here y lives in the outer block, var(x, y)
succeeds, and y's binding still has type STRING (the retype loop scans only
the innermost block), so the claim fails at this input. -/
theorem var_move_outer_binding_not_retyped :
    (eval 5 (Expr.call "var" [Expr.atom "x", Expr.atom "y"]) [] stY).map
      (fun r => (r.2.2.frame.vars, find_variable "y" r.2.2.frame.vars)) =
    Except.ok ([[("y", Ty.STRING)], [("x", Ty.STRING)]], some (0, Ty.STRING)) := by decide

/-- Unfolding of the var case of eval for a bare-identifier right-hand side. -/
theorem eval_var_atom_unfold (fuel : Nat) (x y : String) (asm : List Instr) (st : CState) :
    eval (fuel + 1) (Expr.call "var" [Expr.atom x, Expr.atom y]) asm st =
      (nameStartsAlpha x "Error: variable name must start with a letter" >>= fun _ =>
        if (st.innerBlock.any fun v => v.1 == x) = true then
          Except.error (CErr.typed ("Redeclaration Error: " ++ x))
        else if (st.frame.params.any fun p => p.1 == x) = true then
          Except.error (CErr.typed ("Redeclaration Error(parameter): " ++ x))
        else
          eval fuel (Expr.atom y) asm st >>= fun r =>
          if r.2.1 = Ty.INT ∨ r.2.1 = Ty.STRING ∨ r.2.1 = Ty.STRING_LIT then
            Except.ok (r.1 ++ [Instr.pushResult], Ty.UNDEF,
              (if r.2.1 = Ty.STRING then
                  r.2.2.setInnerBlock (retypeMoved r.2.2.innerBlock (Expr.atom y))
                else r.2.2).setInnerBlock
                ((if r.2.1 = Ty.STRING then
                    r.2.2.setInnerBlock (retypeMoved r.2.2.innerBlock (Expr.atom y))
                  else r.2.2).innerBlock ++ [(x, r.2.1)]))
          else Except.error (CErr.typed ("Error: invalid type: " ++ tyName r.2.1
            ++ " for variable: " ++ x))) := rfl

/-- C4 (amended).  After a successful var(x, y) whose right-hand side is a
bare identifier y of type STRING, the retype-to-UNDEF pass touches only the
bindings named y of the innermost block: the parameters and the outer blocks
are unchanged, and the new innermost block is the old one with its y-bindings
retyped, followed by (x, STRING). -/
theorem var_move_retypes_innermost_only (fuel : Nat) (x y : String) (asm : List Instr)
    (st : CState) (a : List Instr) (t0 : Ty) (st2 : CState)
    (hS : ∃ ay sty, eval fuel (Expr.atom y) asm st = Except.ok (ay, Ty.STRING, sty))
    (h : eval (fuel + 1) (Expr.call "var" [Expr.atom x, Expr.atom y]) asm st
      = Except.ok (a, t0, st2)) :
    st2.frame.params = st.frame.params ∧
    st2.frame.vars = st.frame.vars.dropLast ++
      [retypeMoved st.innerBlock (Expr.atom y) ++ [(x, Ty.STRING)]] := by
  obtain ⟨ay, sty, hy⟩ := hS
  have hsty : sty = st := atom_eval_STRING_state fuel y asm st ay sty hy
  rw [hsty] at hy
  rw [eval_var_atom_unfold] at h
  cases hna : nameStartsAlpha x "Error: variable name must start with a letter" with
  | error er => rw [hna] at h; simp at h
  | ok u =>
    rw [hna] at h
    simp only [ok_bind] at h
    by_cases c1 : (st.innerBlock.any fun v => v.1 == x) = true
    · rw [if_pos c1] at h; simp at h
    rw [if_neg c1] at h
    by_cases c2 : (st.frame.params.any fun p => p.1 == x) = true
    · rw [if_pos c2] at h; simp at h
    rw [if_neg c2] at h
    rw [hy] at h
    simp only [ok_bind] at h
    try simp only [] at h
    simp only [true_or, or_true, if_true] at h
    injection h with hA
    injection hA with h1 hB
    injection hB with h2 h3
    rw [← h3]
    constructor
    · simp [CState.setInnerBlock]
    · rw [innerBlock_setInnerBlock, setInnerBlock_setInnerBlock]
      simp [CState.setInnerBlock]

/-- A state whose innermost block holds the STRING binding y. -/
def stC4w : CState :=
  { initState with frame := { initState.frame with vars := [[("y", Ty.STRING)]] } }

theorem var_move_retypes_innermost_only_witness :
    ({ stC4w with frame := { stC4w.frame with
        vars := [[("y", Ty.UNDEF), ("x", Ty.STRING)]] } }).frame.params = stC4w.frame.params ∧
    ({ stC4w with frame := { stC4w.frame with
        vars := [[("y", Ty.UNDEF), ("x", Ty.STRING)]] } }).frame.vars =
      stC4w.frame.vars.dropLast ++
        [retypeMoved stC4w.innerBlock (Expr.atom "y") ++ [("x", Ty.STRING)]] :=
  var_move_retypes_innermost_only 1 "x" "y" [] stC4w [Instr.getLocal 4, Instr.pushResult]
    Ty.UNDEF _ ⟨[Instr.getLocal 4], stC4w, by decide⟩ (by decide)

/-- The program while(0, { function(f, [], UNDEF, { break() }) }). -/
def progC5 : Expr :=
  Expr.call "while" [Expr.atom "0", Expr.blockArg
    [Expr.call "function" [Expr.atom "f", Expr.paramsArg [], Expr.atom "UNDEF",
      Expr.blockArg [Expr.call "break" []]]]]

/-- C5 (counterexample).  The claim says no loop descriptor is live when a
function body begins evaluation, even if the definition sits inside a while
body.  Compiling progC5 succeeds, and the compiled body of f contains
while-break(1) with the id of the textually enclosing while: the break inside
f found the enclosing loop's descriptor live (with an empty loop stack it
would have aborted with IndexError), so the claim fails at this input.  The
loop stack is empty again after the top-level expression. -/
theorem function_body_inside_while_sees_loop :
    (eval 20 progC5 [] initState).map
      (fun r => ((r.2.2.functions.lookup "f").map FuncDesc.fasm, r.2.1, r.2.2.loopIds)) =
    Except.ok (some [Instr.functionStart "f", Instr.whileBreak 1, Instr.functionEnd "f"],
      Ty.BLOCK, ([] : List (Nat × Nat))) := by decide

/-- C5 (amended).  Every successful evaluation restores the loop stack, so it
is empty between top-level expressions when it starts empty; but nothing
clears it for a function body, which is evaluated with the loop stack of the
definition site (see the counterexample). -/
theorem eval_restores_loop_stack (fuel : Nat) (e : Expr) (asm : List Instr) (st : CState)
    (a : List Instr) (t : Ty) (st2 : CState)
    (h : eval fuel e asm st = Except.ok (a, t, st2)) : st2.loopIds = st.loopIds := by
  have hp := (preservesAll fuel).1 e asm st
  rw [h] at hp
  simpa using hp

/-- The state after evaluating the string literal at top level: one literal
registered, the counter advanced, the loop stack still empty. -/
def stC5res : CState :=
  { initState with uniqueCounter := 1, literals := [("string_1", "a")] }

theorem eval_restores_loop_stack_witness : stC5res.loopIds = initState.loopIds :=
  eval_restores_loop_stack 1 (Expr.atom "\x27a\x27") [] initState
    [Instr.literal "string_1"] Ty.STRING_LIT stC5res (by decide)

/-- C6.  For a general call with arguments, (i) eval pushes the evaluated
arguments in reverse source order, so the first source argument's code and
push come last in the emitted sequence and its collected type lands at the
end of the list (head of the reversed list); and (ii) check_arg_types
compares the reversed collected list pointwise against the declared
signature, pairing signature entry i with the i-th source argument's type. -/
theorem general_call_reverse_push_and_pairing (fuel : Nat) (kw : String) (a : Expr)
    (rest : List Expr) (asm : List Instr) (st : CState) (asmf : List Instr) (tsf : List Ty)
    (stf : CState)
    (hkw : kw ≠ "var" ∧ kw ≠ "set" ∧ kw ≠ "block" ∧ kw ≠ "if" ∧ kw ≠ "while" ∧
      kw ≠ "function" ∧ kw ≠ "return")
    (hargs : evalArgsPush fuel (a :: rest).reverse asm st = Except.ok (asmf, tsf, stf)) :
    eval (fuel + 1) (Expr.call kw (a :: rest)) asm st = generalCall kw (a :: rest) tsf asmf stf ∧
    (∃ g asm1 ts1 st1 d tA,
      evalArgsPush fuel rest.reverse asm st = Except.ok (asm1, ts1, st1) ∧
      eval g a asm1 st1 = Except.ok (asm1 ++ d, tA, stf) ∧
      asmf = asm1 ++ d ++ [Instr.pushResult] ∧
      tsf = ts1 ++ [tA] ∧ tsf.reverse.head? = some tA) ∧
    (∀ expected, check_arg_types kw tsf expected = Except.ok () ↔
      List.Forall₂ (fun t ex => expMatches ex t = true) tsf.reverse expected) := by
  refine ⟨?_, ?_, fun expected => check_arg_types_ok_iff kw tsf expected⟩
  · simp only [eval]
    rw [if_neg hkw.1, if_neg hkw.2.1, if_neg hkw.2.2.1, if_neg hkw.2.2.2.1,
      if_neg hkw.2.2.2.2.1, if_neg hkw.2.2.2.2.2.1, if_neg hkw.2.2.2.2.2.2]
    rw [hargs]
    rfl
  · have hargs2 := hargs
    rw [List.reverse_cons] at hargs2
    obtain ⟨g, asm1, ts1, st1, asmA, tA, h1, h2, h3, h4⟩ :=
      evalArgsPush_snoc rest.reverse a fuel asm st asmf tsf stf hargs2
    have hh := (evalHomAll g).1 a asm1 st1
    rw [h2] at hh
    cases hb : eval g a [] st1 with
    | error er => rw [hb] at hh; exact absurd hh (by simp)
    | ok r =>
      rcases r with ⟨d, t2, st3⟩
      rw [hb] at hh
      simp only [prependT_ok] at hh
      injection hh with hA
      injection hA with ha1 hB
      injection hB with ht1 hs1
      refine ⟨g, asm1, ts1, st1, d, tA, h1, ?_, ?_, h4, ?_⟩
      · rw [h2, ha1]
      · rw [h3, ha1]
      · simp [h4]

theorem general_call_reverse_push_and_pairing_witness :
    eval 4 (Expr.call "add" [Expr.atom "1", Expr.atom "2"]) [] initState =
      generalCall "add" [Expr.atom "1", Expr.atom "2"] [Ty.INT, Ty.INT]
        [Instr.literal "2", Instr.pushResult, Instr.literal "1", Instr.pushResult] initState :=
  (general_call_reverse_push_and_pairing 3 "add" (Expr.atom "1") [Expr.atom "2"] [] initState
    _ _ _ (by decide) (by decide)).1

/-- C7.  A successful function(name, params, return-type, body) definition
returns the caller's assembly buffer unchanged (the body is compiled into a
separate buffer stored in the function table) and yields the declared return
type. -/
theorem function_def_preserves_caller_asm (fuel : Nat) (nm : String)
    (ps : List (String × String)) (rts : String) (body : Expr) (asm : List Instr)
    (st : CState) (a : List Instr) (t : Ty) (st2 : CState)
    (h : eval (fuel + 1) (Expr.call "function"
        [Expr.atom nm, Expr.paramsArg ps, Expr.atom rts, body]) asm st
      = Except.ok (a, t, st2)) :
    a = asm ∧ tyOfString rts = some t := by
  rw [eval_function_unfold] at h
  cases hna : nameStartsAlpha nm "Error: function name must start with a letter" with
  | error er => rw [hna] at h; simp at h
  | ok u =>
    rw [hna] at h
    simp only [ok_bind] at h
    cases hty : tyOfString rts with
    | none => rw [hty] at h; simp at h
    | some rt =>
      rw [hty] at h
      simp only [] at h
      cases hpt : checkParamTypes ps with
      | error er => rw [hpt] at h; simp at h
      | ok params =>
        rw [hpt] at h
        simp only [ok_bind] at h
        cases hpn : checkParamNames params with
        | error er => rw [hpn] at h; simp at h
        | ok u2 =>
          rw [hpn] at h
          simp only [ok_bind] at h
          cases hb : evalBlockE fuel body [Instr.functionStart nm]
              (functionEntryState st nm params rt) with
          | error er => rw [hb] at h; simp at h
          | ok r =>
            rcases r with ⟨fnAsm, st4⟩
            rw [hb] at h
            simp only [ok_bind] at h
            try simp only [] at h
            cases hof : st4.outerFrames with
            | nil => rw [hof] at h; simp at h
            | cons f rest =>
              rw [hof] at h
              try simp only [] at h
              injection h with hA
              injection hA with h1 hB
              injection hB with h2 h3
              exact ⟨h1.symm, congrArg some h2⟩

/-- The state after defining function f(a : INT) : INT = return(a). -/
def stC7res : CState :=
  { initState with functions := [("f",
      { param_types := [Ty.INT], return_type := Ty.INT,
        fasm := [Instr.functionStart "f", Instr.getParam 8, Instr.primaryReturn,
          Instr.functionEnd "f"] })] }

theorem function_def_preserves_caller_asm_witness :
    ([Instr.pushResult] : List Instr) = [Instr.pushResult] ∧
      tyOfString "INT" = some Ty.INT :=
  function_def_preserves_caller_asm 8 "f" [("a", "INT")] "INT"
    (Expr.blockArg [Expr.call "return" [Expr.atom "a"]]) [Instr.pushResult] initState
    [Instr.pushResult] Ty.INT stC7res (by decide)

/-- C8.  break and continue take zero arguments and need a live loop
descriptor: with an empty loop stack, compilation aborts with the uncaught
IndexError from peeking the empty LOOP_IDS list rather than a typed error;
with a nonempty loop stack they emit the loop-break free sequence followed by
the break or continue jump carrying the innermost loop's id; and a call with
one or more arguments can never succeed. -/
theorem break_continue_behaviour (fuel : Nat) (kw : String) (asm : List Instr) (st : CState)
    (hkw : kw = "break" ∨ kw = "continue") :
    (st.loopIds = [] → eval (fuel + 1) (Expr.call kw []) asm st
      = Except.error CErr.indexError) ∧
    (∀ l id dep, st.loopIds = l ++ [(id, dep)] →
      eval (fuel + 1) (Expr.call kw []) asm st = Except.ok
        (asm ++ loopBreakFrees st dep ++
          [if kw = "break" then Instr.whileBreak id else Instr.whileContinue id],
          Ty.UNDEF, st)) ∧
    (∀ a2 rest r, eval (fuel + 1) (Expr.call kw (a2 :: rest)) asm st ≠ Except.ok r) := by
  have main : ∀ kv : String, kv = "break" ∨ kv = "continue" →
      (∀ jump : Nat → Instr, (∀ id, jump id =
          (if kv = "break" then Instr.whileBreak id else Instr.whileContinue id)) →
        (st.loopIds = [] → eval (fuel + 1) (Expr.call kv []) asm st
          = Except.error CErr.indexError) ∧
        (∀ l id dep, st.loopIds = l ++ [(id, dep)] →
          eval (fuel + 1) (Expr.call kv []) asm st = Except.ok
            (asm ++ loopBreakFrees st dep ++ [jump id], Ty.UNDEF, st))) := by
    rintro kv (rfl | rfl) jump hjump
    · constructor
      · intro hl
        have hstep : eval (fuel + 1) (Expr.call "break" []) asm st =
            (evalArgsPush fuel ([] : List Expr) asm st >>= fun r =>
              generalCall "break" [] r.2.1 r.1 r.2.2) := rfl
        rw [hstep, evalArgsPush_nil]
        simp only [ok_bind]
        have hgc : generalCall "break" ([] : List Expr) ([] : List Ty) asm st =
            (free_at_loop_break st >>= fun fd =>
              match st.loopIds.getLast? with
              | none => Except.error CErr.indexError
              | some (id, _) =>
                  Except.ok (asm ++ fd ++ [Instr.whileBreak id], Ty.UNDEF, st)) := rfl
        rw [hgc]
        have h1 : free_at_loop_break st = Except.error CErr.indexError := by
          unfold free_at_loop_break
          rw [hl]
          rfl
        rw [h1]
        rfl
      · intro l id dep hl
        have hsome : st.loopIds.getLast? = some (id, dep) := by
          rw [hl]
          exact List.getLast?_concat _
        have hstep : eval (fuel + 1) (Expr.call "break" []) asm st =
            (evalArgsPush fuel ([] : List Expr) asm st >>= fun r =>
              generalCall "break" [] r.2.1 r.1 r.2.2) := rfl
        rw [hstep, evalArgsPush_nil]
        simp only [ok_bind]
        have hgc : generalCall "break" ([] : List Expr) ([] : List Ty) asm st =
            (free_at_loop_break st >>= fun fd =>
              match st.loopIds.getLast? with
              | none => Except.error CErr.indexError
              | some (id2, _) =>
                  Except.ok (asm ++ fd ++ [Instr.whileBreak id2], Ty.UNDEF, st)) := rfl
        rw [hgc]
        have hfd : free_at_loop_break st = Except.ok (loopBreakFrees st dep) := by
          unfold free_at_loop_break
          rw [hsome]
        rw [hfd]
        simp only [ok_bind]
        rw [hsome]
        simp [hjump id]
    · constructor
      · intro hl
        have hstep : eval (fuel + 1) (Expr.call "continue" []) asm st =
            (evalArgsPush fuel ([] : List Expr) asm st >>= fun r =>
              generalCall "continue" [] r.2.1 r.1 r.2.2) := rfl
        rw [hstep, evalArgsPush_nil]
        simp only [ok_bind]
        have hgc : generalCall "continue" ([] : List Expr) ([] : List Ty) asm st =
            (free_at_loop_break st >>= fun fd =>
              match st.loopIds.getLast? with
              | none => Except.error CErr.indexError
              | some (id, _) =>
                  Except.ok (asm ++ fd ++ [Instr.whileContinue id], Ty.UNDEF, st)) := rfl
        rw [hgc]
        have h1 : free_at_loop_break st = Except.error CErr.indexError := by
          unfold free_at_loop_break
          rw [hl]
          rfl
        rw [h1]
        rfl
      · intro l id dep hl
        have hsome : st.loopIds.getLast? = some (id, dep) := by
          rw [hl]
          exact List.getLast?_concat _
        have hstep : eval (fuel + 1) (Expr.call "continue" []) asm st =
            (evalArgsPush fuel ([] : List Expr) asm st >>= fun r =>
              generalCall "continue" [] r.2.1 r.1 r.2.2) := rfl
        rw [hstep, evalArgsPush_nil]
        simp only [ok_bind]
        have hgc : generalCall "continue" ([] : List Expr) ([] : List Ty) asm st =
            (free_at_loop_break st >>= fun fd =>
              match st.loopIds.getLast? with
              | none => Except.error CErr.indexError
              | some (id2, _) =>
                  Except.ok (asm ++ fd ++ [Instr.whileContinue id2], Ty.UNDEF, st)) := rfl
        rw [hgc]
        have hfd : free_at_loop_break st = Except.ok (loopBreakFrees st dep) := by
          unfold free_at_loop_break
          rw [hsome]
        rw [hfd]
        simp only [ok_bind]
        rw [hsome]
        simp [hjump id]
  have noargs : ∀ kv : String, kv = "break" ∨ kv = "continue" →
      ∀ a2 rest r, eval (fuel + 1) (Expr.call kv (a2 :: rest)) asm st ≠ Except.ok r := by
    rintro kv hkv a2 rest r hcon
    have hstep : eval (fuel + 1) (Expr.call kv (a2 :: rest)) asm st =
        (evalArgsPush fuel (a2 :: rest).reverse asm st >>= fun rr =>
          generalCall kv (a2 :: rest) rr.2.1 rr.1 rr.2.2) := by
      rcases hkv with rfl | rfl <;> rfl
    rw [hstep] at hcon
    cases hA : evalArgsPush fuel (a2 :: rest).reverse asm st with
    | error er => rw [hA] at hcon; simp at hcon
    | ok rr =>
      rcases rr with ⟨d, ts, st1⟩
      rw [hA] at hcon
      simp only [ok_bind] at hcon
      have hlen : ts.length = rest.length + 1 := by
        have := evalArgsPush_length (a2 :: rest).reverse fuel asm st d ts st1 hA
        simpa using this
      cases ts with
      | nil => simp at hlen
      | cons t0 ts2 =>
        have hgc : generalCall kv (a2 :: rest) (t0 :: ts2) d st1 =
            (check_arg_types kv (t0 :: ts2) [] >>= fun _ =>
              free_at_loop_break st1 >>= fun fd =>
              match st1.loopIds.getLast? with
              | none => Except.error CErr.indexError
              | some (id, _) =>
                  Except.ok (d ++ fd ++ [if kv = "break" then Instr.whileBreak id
                    else Instr.whileContinue id], Ty.UNDEF, st1)) := by
          rcases hkv with rfl | rfl <;> rfl
        rw [hgc] at hcon
        cases hchk : check_arg_types kv (t0 :: ts2) [] with
        | error er => rw [hchk] at hcon; simp at hcon
        | ok u =>
          have hf := (check_arg_types_ok_iff kv (t0 :: ts2) []).mp (by rw [hchk])
          have := hf.length_eq
          simp at this
  exact ⟨(main kw hkw _ (fun id => rfl)).1, fun l id dep hl =>
    (main kw hkw _ (fun id => rfl)).2 l id dep hl, noargs kw hkw⟩

theorem break_continue_behaviour_witness :
    eval 1 (Expr.call "break" []) [] initState = Except.error CErr.indexError :=
  (break_continue_behaviour 0 "break" [] initState (Or.inl rfl)).1 rfl

/-- C9.  eval is pure append-only on the assembly buffer: a successful run on
any buffer returns that buffer extended by a suffix, and the same run on the
empty buffer produces exactly that suffix with the same type and state, so
the suffix does not depend on the incoming buffer's contents. -/
theorem eval_append_only (fuel : Nat) (e : Expr) (asm : List Instr) (st : CState)
    (a : List Instr) (t : Ty) (st2 : CState)
    (h : eval fuel e asm st = Except.ok (a, t, st2)) :
    ∃ d, a = asm ++ d ∧ eval fuel e [] st = Except.ok (d, t, st2) := by
  have hh := (evalHomAll fuel).1 e asm st
  rw [h] at hh
  cases hb : eval fuel e [] st with
  | error er => rw [hb] at hh; exact absurd hh (by simp)
  | ok r =>
    rcases r with ⟨d, t2, st3⟩
    rw [hb] at hh
    simp only [prependT_ok] at hh
    injection hh with hA
    injection hA with h1 hB
    injection hB with h2 h3
    exact ⟨d, h1, by rw [h2, h3]⟩

theorem eval_append_only_witness :
    ∃ d, [Instr.pushResult, Instr.literal "7"] = [Instr.pushResult] ++ d ∧
      eval 1 (Expr.atom "7") [] initState = Except.ok (d, Ty.INT, initState) :=
  eval_append_only 1 (Expr.atom "7") [Instr.pushResult] initState
    [Instr.pushResult, Instr.literal "7"] Ty.INT initState (by decide)

/-- C10.  set(p, e) where p resolves only as a parameter of the current frame
(and not as a declared variable) always fails with the undeclared-variable
error: the set case looks p up with find_variable, which searches only the
frame's variable blocks, never the parameter list. -/
theorem set_on_parameter_undeclared_error (fuel : Nat) (p : String) (e : Expr)
    (asm : List Instr) (st : CState) (i : Nat) (tp : Ty)
    (hparam : find_parameter p st.frame.params = some (i, tp))
    (hvar : find_variable p st.frame.vars = none) :
    eval (fuel + 1) (Expr.call "set" [Expr.atom p, e]) asm st =
      Except.error (CErr.typed ("Error setting undeclared variable: " ++ p)) := by
  simp [eval, check_arguments, hvar, exprText]

theorem set_on_parameter_undeclared_error_witness :
    eval 3 (Expr.call "set" [Expr.atom "p", Expr.atom "1"]) []
        { initState with frame := { initState.frame with params := [("p", Ty.INT)] } } =
      Except.error (CErr.typed ("Error setting undeclared variable: " ++ "p")) :=
  set_on_parameter_undeclared_error 2 "p" (Expr.atom "1") []
    { initState with frame := { initState.frame with params := [("p", Ty.INT)] } }
    0 Ty.INT (by decide) (by decide)

end ToyCompiler
